import Mathlib

/-!
The single-job execution engine of schd_job (`shell.go`).

A shallow embedding of the parts of `shell.go` that the specification talks
about, followed by the theorems that settle each claim.

Conventions of the embedding.

* Go strings are Lean `String`s, Go slices are `List`s, `int32`/`int64` values
  are `Int`s (no arithmetic on them can overflow in the code modelled here).
* The file system is a function from path strings to the file stored there;
  `os.Stat`, `os.Remove` and `os.Rename` act on it.  A remove or rename can be
  refused by the operating system: the refusals are given by an oracle
  `fault`, so that every error path of the code can be reached.
* A Go `map` is an association list with distinct keys; a pointer obtained
  from `&T{}` is a natural number that was never handed out before.
* A panic is an explicit outcome; deferred calls are run on every way out of
  the function that registered them.
-/

namespace SchdJob

/-! ## Data model -/

/-- The opaque attribute bag `map[string]interface{}` of a job. -/
abbrev Attributes := List (String × String)

/-- The Go struct `ShellJob`. -/
structure ShellJob where
  id : Int
  name : String
  mode : String
  enabled : Bool
  queue : String
  execute : String
  directory : String
  environments : List String
  arguments : List String
  logfile : String
  timeout : Int
  expression : String
  status : Int
  attributes : Attributes
deriving DecidableEq, Repr

/-- The constant `maxNum`. -/
def maxNum : Nat := 5

/-- The constant `maxBytes`. -/
def maxBytes : Nat := 5 * 1024 * 1024

/-! ## isMode -/

/-- The method `ShellJob.isMode`. -/
def ShellJob.isMode (self : ShellJob) (mode : String) : Bool :=
  if "" = mode ∨ "all" = mode then
    true
  else if "" = self.mode ∨ "default" = self.mode then
    true
  else if self.mode = mode then
    true
  else
    false

/-! ## ToMap -/

/-- The values stored in the `map[string]interface{}` built by `ToMap`. -/
inductive Value where
  | str (s : String)
  | strs (l : List String)
  | attrs (m : Attributes)
deriving DecidableEq, Repr

/-- The library function `strconv.FormatInt`, for bases up to ten. -/
def FormatInt (i : Int) (base : Nat) : String :=
  match i with
  | Int.ofNat n => String.mk (Nat.toDigits base n)
  | Int.negSucc n => "-" ++ String.mk (Nat.toDigits base (n + 1))

/-- The method `ShellJob.ToMap`; the map literal is kept in source order. -/
def ShellJob.ToMap (self : ShellJob) : List (String × Value) :=
  [("type", Value.str "exec2"),
   ("command", Value.str self.execute),
   ("arguments", Value.strs self.arguments),
   ("attributes", Value.attrs self.attributes),
   ("environments", Value.strs (self.environments ++
      ["schd_job_id=" ++ FormatInt self.id 10,
       "schd_job_name=" ++ self.name]))]

/-! ## File system -/

/-- A file as `os.Stat` and the rename/remove calls see it. -/
structure File where
  size : Nat
  isDir : Bool
  data : String
deriving DecidableEq, Repr

/-- A file system state: what is stored under each path. -/
abbrev FS := String → Option File

/-- The errors of the file system calls. -/
inductive OsError where
  | notExist (path : String)
  | notDir (path : String)
  | refused (call : String) (path : String)
deriving DecidableEq, Repr

/-- The predicate `os.IsNotExist`: true of "no such file or directory", false
of "not a directory" and of a refusal. -/
def OsError.IsNotExist : OsError → Bool
  | OsError.notExist _ => true
  | OsError.notDir _ => false
  | OsError.refused _ _ => false

/-- The state-changing file system calls made by `rotate_file`. -/
inductive SysCall where
  | remove (path : String)
  | rename (oldpath newpath : String)
deriving DecidableEq, Repr

/-- Store `v` under `p`. -/
def FS.set (fs : FS) (p : String) (v : Option File) : FS :=
  fun q => if q = p then v else fs q

/-- The directories above a path: its proper prefixes that end just before a
slash. -/
def pathAncestors (name : String) : List String :=
  (List.range name.data.length).filterMap (fun i =>
    if 0 < i ∧ name.data.get? i = some '/' then some (String.mk (name.data.take i))
    else none)

/-- Whether a path leads through a regular file: one of the directories above
it holds a file that is not a directory. -/
def blockedByFile (fs : FS) (name : String) : Bool :=
  (pathAncestors name).any (fun p =>
    match fs p with
    | some f => !f.isDir
    | none => false)

/-- The call `os.Stat`.  A path that holds a file can be examined.  On a path
that holds nothing the call fails: with "not a directory" when the path leads
through a regular file, with "no such file or directory" otherwise.  (Failures
for lack of permission or for an over-long name are not part of this file
system.) -/
def Stat (fs : FS) (name : String) : Except OsError File :=
  match fs name with
  | some f => Except.ok f
  | none =>
    Except.error
      (if blockedByFile fs name then OsError.notDir name else OsError.notExist name)

/-- The call `os.Remove`: the state afterwards and the error, if any. -/
def Remove (fault : SysCall → Bool) (fs : FS) (name : String) : FS × Option OsError :=
  if fault (SysCall.remove name) then
    (fs, some (OsError.refused "remove" name))
  else
    match fs name with
    | none => (fs, some (OsError.notExist name))
    | some _ => (fs.set name none, none)

/-- The call `os.Rename`: the file moves to `newpath`, replacing what was there. -/
def Rename (fault : SysCall → Bool) (fs : FS) (oldpath newpath : String) :
    FS × Option OsError :=
  if fault (SysCall.rename oldpath newpath) then
    (fs, some (OsError.refused "rename" oldpath))
  else
    match fs oldpath with
    | none => (fs, some (OsError.notExist oldpath))
    | some f =>
      if oldpath = newpath then (fs, none)
      else ((fs.set newpath (some f)).set oldpath none, none)

/-! ## rotate_file -/

/-- The call `fmt.Sprintf(".%04d", num)` for a non-negative `num`. -/
def Sprintf04d (num : Nat) : String :=
  let ds := Nat.toDigits 10 num
  "." ++ String.mk (List.replicate (4 - ds.length) '0' ++ ds)

/-- The loop `for num := maxNum - 1; num > 0; num--` of `rotate_file`, entered
with the loop variable at `num` and the current `fname1`.  It yields the state,
the last `fname1`, and the error that made the function return, if any. -/
def rotateLoop (fault : SysCall → Bool) (logfile : String) :
    Nat → FS → String → FS × String × Option OsError
  | 0, fs, fname1 => (fs, fname1, none)
  | num + 1, fs, fname1 =>
    let fname2 := fname1
    let fname1 := logfile ++ Sprintf04d (num + 1)
    match Stat fs fname1 with
    | Except.error _ => rotateLoop fault logfile num fs fname1
    | Except.ok _ =>
      match Rename fault fs fname1 fname2 with
      | (fs1, some err) => (fs1, fname1, some err)
      | (fs1, none) => rotateLoop fault logfile num fs1 fname1

/-- The method `ShellJob.rotate_file`, as a function of the log path: the file
system afterwards and the returned error (`none` for `nil`). -/
def rotate_file (fault : SysCall → Bool) (fs : FS) (logfile : String) : FS × Option OsError :=
  match Stat fs logfile with
  | Except.error err =>
    if err.IsNotExist then (fs, none) else (fs, some err)
  | Except.ok st =>
    if st.size < maxBytes then (fs, none)
    else
      let fname2 := logfile ++ Sprintf04d maxNum
      let afterRemove : FS × Option OsError :=
        match Stat fs fname2 with
        | Except.ok _ => Remove fault fs fname2
        | Except.error _ => (fs, none)
      match afterRemove with
      | (fs1, some err) => (fs1, some err)
      | (fs1, none) =>
        match rotateLoop fault logfile (maxNum - 1) fs1 fname2 with
        | (fs2, _, some err) => (fs2, some err)
        | (fs2, fname1, none) => Rename fault fs2 logfile fname1

/-! ## Queue locks -/

/-- The lookup `m[k]` of a Go map. -/
def mapGet (m : List (String × Nat)) (k : String) : Option Nat :=
  match m with
  | [] => none
  | (k1, v) :: rest => if k1 = k then some v else mapGet rest k

/-- The assignment `m[k] = v` of a Go map. -/
def mapSet (m : List (String × Nat)) (k : String) (v : Nat) : List (String × Nat) :=
  (k, v) :: m.filter (fun e => decide (e.1 ≠ k))

/-- The package variable `queues` (queue name to lock pointer), together with
the allocator that serves `&queueLock{}`: `next` is the first address that has
not been handed out. -/
structure Registry where
  queues : List (String × Nat)
  next : Nat
deriving DecidableEq, Repr

/-- The registry at program start: `queues = map[string]*queueLock{}`. -/
def Registry.empty : Registry := ⟨[], 0⟩

/-- The function `GetQueueLock`: the registry afterwards, and the returned
pointer, or `none` when the call panics with "queue is too many.". -/
def GetQueueLock (r : Registry) (name : String) : Registry × Option Nat :=
  let found : Registry × Nat :=
    match mapGet r.queues name with
    | some q => (r, q)
    | none => (⟨mapSet r.queues name r.next, r.next + 1⟩, r.next)
  if found.1.queues.length > 1000 then (found.1, none)
  else (found.1, some found.2)

/-- The registry after a sequence of `GetQueueLock` calls, faulting ones
included (a panic does not undo the insertion that preceded it). -/
def callAll (r : Registry) (names : List String) : Registry :=
  names.foldl (fun acc name => (GetQueueLock acc name).1) r

/-- Whether every call of a sequence of `GetQueueLock` calls returned. -/
def allReturn : Registry → List String → Bool
  | _, [] => true
  | r, name :: rest =>
    match GetQueueLock r name with
    | (_, none) => false
    | (r1, some _) => allReturn r1 rest

/-! ## Run -/

/-- What a call of the hook `RunHook` does. -/
inductive HookResult where
  | returnsTrue
  | returnsFalse
  | panics
deriving DecidableEq, Repr

/-- The package variables `Run` reads, and the behaviour of what it calls:
the result of `Exec` is the job and file system it leaves and whether it
panicked. -/
structure Env where
  RunMode : String
  RunHook : Option (ShellJob → HookResult)
  fault : SysCall → Bool
  Exec : ShellJob → FS → ShellJob × FS × Bool

/-- The state `Run` works on besides the job itself. -/
structure World where
  queues : Registry
  fs : FS

/-- The observable steps of a `Run`. -/
inductive Event where
  | println (line : String)
  | lock (q : Nat)
  | unlock (q : Nat)
  | hook (job : ShellJob)
  | rotate (err : Option OsError)
  | exec (job : ShellJob)
deriving DecidableEq, Repr

/-- The outcome of a `Run`: `panicked` holds the panic that ended it, if any. -/
structure Result where
  job : ShellJob
  world : World
  trace : List Event
  panicked : Option String

/-- The method `Error` of the file system errors. -/
def OsError.Error : OsError → String
  | OsError.notExist path => path ++ ": no such file or directory"
  | OsError.notDir path => path ++ ": not a directory"
  | OsError.refused call path => call ++ " " ++ path ++ ": operation not permitted"

/-- Lines 156-161 of `Run`: rotate the log, report a failure, call `Exec`. -/
def runExec (env : Env) (w : World) (self : ShellJob) : Result :=
  let rot := rotate_file env.fault w.fs self.logfile
  let report : List Event :=
    match rot.2 with
    | some e => [Event.println ("[" ++ self.name ++ "] rotate log file failed," ++ " " ++ e.Error)]
    | none => []
  let done := env.Exec self rot.1
  { job := done.1
    world := { w with fs := done.2.1 }
    trace := [Event.rotate rot.2] ++ report ++ [Event.exec self]
    panicked := if done.2.2 then some "Exec" else none }

/-- Lines 151-161 of `Run`: the hook, then the native execution. -/
def runHooked (env : Env) (w : World) (self : ShellJob) : Result :=
  match env.RunHook with
  | none => runExec env w self
  | some hook =>
    match hook self with
    | HookResult.panics =>
      { job := self, world := w, trace := [Event.hook self], panicked := some "RunHook" }
    | HookResult.returnsTrue =>
      { job := self, world := w
        trace := [Event.hook self, Event.println ("[" ++ self.name ++ "] run it with hook.")]
        panicked := none }
    | HookResult.returnsFalse =>
      let r := runExec env w self
      { r with trace := Event.hook self :: r.trace }

/-- Lines 139-161 of `Run`: the queue lock is taken around the rest; its
deferred release runs however the rest ends.  Taking the lock is a step that
succeeds (one run is followed, so nobody else holds the lock); the time stamp
`lastAt` is informational and is not kept. -/
def runQueued (env : Env) (w : World) (self : ShellJob) : Result :=
  if "" ≠ self.queue then
    match GetQueueLock w.queues self.queue with
    | (reg, none) =>
      { job := self, world := { w with queues := reg }, trace := []
        panicked := some "queue is too many." }
    | (reg, some q) =>
      let r := runHooked env { w with queues := reg } self
      { r with
        trace :=
          [Event.println ("[" ++ self.name ++ "] try entry queue" ++ " " ++ self.queue ++ " " ++ "."),
           Event.lock q,
           Event.println ("[" ++ self.name ++ "] already entry queue" ++ " " ++ self.queue ++ " " ++ ".")]
          ++ r.trace ++
          [Event.unlock q,
           Event.println ("[" ++ r.job.name ++ "] exit queue" ++ " " ++ r.job.queue ++ " " ++ ".")] }
  else
    runHooked env w self

/-- The method `ShellJob.Run`.  The compare-and-swap either fails, and the
call returns at once, or sets the flag; the deferred store resets it on every
way out of the rest of the body. -/
def ShellJob.Run (env : Env) (w : World) (self : ShellJob) : Result :=
  if self.status ≠ 0 then
    { job := self, world := w
      trace := [Event.println ("[" ++ self.name ++ "] running!")], panicked := none }
  else
    let self1 := { self with status := 1 }
    let r : Result :=
      if ¬ self1.enabled then
        { job := self1, world := w
          trace := [Event.println ("[" ++ self1.name ++ "] is disabled.")], panicked := none }
      else if ¬ self1.isMode env.RunMode then
        { job := self1, world := w
          trace := [Event.println ("[" ++ self1.name ++ "] should run on \x27" ++ self1.mode ++
            "\x27, but current mode is \x27" ++ env.RunMode ++ "\x27.")]
          panicked := none }
      else
        runQueued env w self1
    { r with job := { r.job with status := 0 } }

/-- Whether an event is a call of `Exec`. -/
def Event.isExec : Event → Bool
  | Event.exec _ => true
  | _ => false

/-- Whether an event is a call of the hook. -/
def Event.isHook : Event → Bool
  | Event.hook _ => true
  | _ => false

/-- Whether an event is a line written by `log.Println`. -/
def Event.isPrintln : Event → Bool
  | Event.println _ => true
  | _ => false

/-- Whether the run called `Exec`. -/
def Result.callsExec (r : Result) : Bool := r.trace.any Event.isExec

/-- The status flag seen by the hook or by `Exec` when the event is a call of
one of them. -/
def Event.statusSeen : Event → Option Int
  | Event.hook job => some job.status
  | Event.exec job => some job.status
  | _ => none

/-- The lock taken, when the event is a `Lock` of a queue lock. -/
def Event.locked : Event → Option Nat
  | Event.lock q => some q
  | _ => none

/-- The lock released, when the event is an `Unlock` of a queue lock. -/
def Event.unlocked : Event → Option Nat
  | Event.unlock q => some q
  | _ => none

/-- The queue locks a run took, in order. -/
def Result.locks (r : Result) : List Nat := r.trace.filterMap Event.locked

/-- The queue locks a run released, in order. -/
def Result.unlocks (r : Result) : List Nat := r.trace.filterMap Event.unlocked

/-! ## LookPath -/

/-- What `LookPath` takes from the platform and from outside `shell.go`:
`runtime.GOOS`, `filepath.IsAbs`, `filepath.Join`, the helper `abs` (defined
elsewhere in the package), and whether `exec.LookPath` finds a name. -/
structure Platform where
  GOOS : String
  IsAbs : String → Bool
  Join : List String → String
  abs : String → String
  execLookPath : String → Bool

/-- The candidate names built at the start of `LookPath`. -/
def lookPathNames (P : Platform) (pa : String) (aliases : List String) : List String :=
  let names :=
    if P.GOOS = "windows" then [pa, pa ++ ".bat", pa ++ ".com", pa ++ ".exe"]
    else [pa, pa ++ ".sh"]
  aliases.foldl
    (fun names aliasName =>
      if P.GOOS = "windows" then
        names ++ [aliasName, aliasName ++ ".bat", aliasName ++ ".com", aliasName, aliasName ++ ".exe"]
      else
        names ++ [aliasName, aliasName ++ ".sh"])
    names

/-- The slice `files` built for one candidate name. -/
def lookPathFiles (P : Platform) (executableFolder nm : String) : List String :=
  [nm,
   P.Join ["bin", nm],
   P.Join ["tools", nm],
   P.Join ["runtime_env", nm],
   P.Join ["..", nm],
   P.Join ["..", "bin", nm],
   P.Join ["..", "tools", nm],
   P.Join ["..", "runtime_env", nm],
   P.Join [executableFolder, nm],
   P.Join [executableFolder, "bin", nm],
   P.Join [executableFolder, "tools", nm],
   P.Join [executableFolder, "runtime_env", nm],
   P.Join [executableFolder, "..", nm],
   P.Join [executableFolder, "..", "bin", nm],
   P.Join [executableFolder, "..", "tools", nm],
   P.Join [executableFolder, "..", "runtime_env", nm]]

/-- The test of the inner loop of `LookPath`: the absolute form of `file` when
`os.Stat` succeeds on it and it is not a directory. -/
def probe (P : Platform) (fs : FS) (file : String) : Option String :=
  let file := P.abs file
  match Stat fs file with
  | Except.ok st => if ¬ st.isDir then some file else none
  | Except.error _ => none

/-- The function `LookPath`. -/
def LookPath (P : Platform) (fs : FS) (executableFolder pa : String) (aliases : List String) :
    String × Bool :=
  if P.IsAbs pa then (pa, true)
  else
    let names := lookPathNames P pa aliases
    match names.findSome? (fun nm => (lookPathFiles P executableFolder nm).findSome? (probe P fs)) with
    | some file => (file, true)
    | none =>
      match names.find? P.execLookPath with
      | some nm => (nm, true)
      | none => ("", false)

/-! ### The resolver as the specification words it -/

/-- The platform extensions: `.sh` on POSIX; `.bat`, `.com`, `.exe` on Windows. -/
def specExtensions (P : Platform) : List String :=
  if P.GOOS = "windows" then [".bat", ".com", ".exe"] else [".sh"]

/-- The candidate names of the specification: the base name, the base name
with each platform extension, then each alias with the same treatment. -/
def specNames (P : Platform) (pa : String) (aliases : List String) : List String :=
  (pa :: aliases).flatMap (fun n => n :: (specExtensions P).map (fun ext => n ++ ext))

/-- The locations of the specification for one name: the name, then `bin/`,
`tools/`, `runtime_env/`, each under the working directory, under its parent,
under the search root, and under the parent of the root. -/
def specLocations (P : Platform) (root nm : String) : List String :=
  let under (base : List String) : List String :=
    [P.Join (base ++ [nm]), P.Join (base ++ ["bin", nm]), P.Join (base ++ ["tools", nm]),
     P.Join (base ++ ["runtime_env", nm])]
  [nm, P.Join ["bin", nm], P.Join ["tools", nm], P.Join ["runtime_env", nm]]
    ++ under [".."] ++ under [root] ++ under [root, ".."]

/-- The candidates of the specification in order, name-major. -/
def specCandidates (P : Platform) (root pa : String) (aliases : List String) : List String :=
  (specNames P pa aliases).flatMap (specLocations P root)

/-- The first candidate of the specification that exists and is not a
directory, in absolute form. -/
def specFirst (P : Platform) (fs : FS) (root pa : String) (aliases : List String) :
    Option String :=
  (specCandidates P root pa aliases).findSome? (probe P fs)

/-! ## Exec -/

/-- What `cmd.Wait` returns: an error (with the process state set or not), or
nil, in which case `os/exec` has set `cmd.ProcessState`, so that the test
`nil != cmd.ProcessState` of lines 360 and 376 succeeds. -/
inductive WaitResult where
  | failed (err : String) (state : Option String)
  | exited (state : String)
deriving DecidableEq, Repr

/-- Which case of the `select` statement of `Exec` ran: the one that receives
the result of `cmd.Wait`, because the process completed first, or the one of
`time.After`, because the timer fired first. -/
inductive SelectCase where
  | processDone
  | timerFired
deriving DecidableEq, Repr

/-- What the operating system does during one `Exec`: the error of
`os.OpenFile` on a path, `os.Environ`, the `Path` that `exec.Command` gives the
command, the error of `cmd.Start`, the process id, the result of `cmd.Wait`,
and the case of the `select` statement that runs. -/
structure ProcessEnv where
  openError : String → Option String
  environ : List String
  commandPath : String → String
  startError : Option String
  pid : Int
  wait : WaitResult
  selected : SelectCase

/-- What one `Exec` did: the job (its log path may have been rewritten), the
log path opened, the strings written to the log by `Exec` itself in order, the
environment given to the command, the process ids passed to `killByPid` (a
helper defined outside `shell.go`), and the lines of `log.Println`. -/
structure ExecResult where
  job : ShellJob
  opened : Option String
  written : List String
  environment : List String
  killed : List Int
  printed : List String
deriving DecidableEq, Repr

/-- The call `strings.Replace(s, old, new, -1)` for one-character strings. -/
def Replace (s : String) (old new : Char) : String :=
  String.mk (s.data.map (fun c => if c = old then new else c))

/-- Lines 292-300 of `Exec`: the characters a file name may not hold are
replaced by an underscore, one `strings.Replace` after the other. -/
def sanitizeLogfile (logfile : String) : String :=
  let s := Replace logfile '/' '_'
  let s := Replace s (Char.ofNat 92) '_'
  let s := Replace s '*' '_'
  let s := Replace s ':' '_'
  let s := Replace s (Char.ofNat 34) '_'
  let s := Replace s '|' '_'
  let s := Replace s '?' '_'
  let s := Replace s '>' '_'
  Replace s '<' '_'

/-- The marker written first. -/
def beginMarker : String := "=============== begin ===============\r\n"

/-- The marker written by the deferred call. -/
def endMarker : String := "===============  end  ===============\r\n"

/-- Lines 342-351 of `Exec`: the path of the command, each argument after the
program name on a line of its own, and the separator. -/
def execHeader (cmdPath : String) (args : List String) : List String :=
  [cmdPath] ++ (args.drop 1).flatMap (fun s => ["\r\n \t\t", s]) ++
    ["\r\n===============  out  ===============\r\n"]

/-- Lines 358-362 and 374-378 of `Exec`: the line that reports how the process
ended. -/
def exitLines (w : WaitResult) : List String :=
  match w with
  | WaitResult.failed err _ => ["run failed, " ++ err ++ "\r\n"]
  | WaitResult.exited state => ["run ok, exit with " ++ state ++ ".\r\n"]

/-- Lines 352-382 of `Exec`: start the process and wait for it, within the
timeout if there is one.  The result is what is written to the log and the
process ids killed. -/
def startAndWait (os : ProcessEnv) (timeout : Int) : List String × List Int :=
  match os.startError with
  | some e => (["start failed, " ++ e ++ "\r\n"], [])
  | none =>
    if timeout ≤ 0 then
      (exitLines os.wait, [])
    else
      match os.selected with
      | SelectCase.processDone => (exitLines os.wait, [])
      | SelectCase.timerFired => (["run timeout, kill it.\r\n"], [os.pid])

/-- Lines 312-320 of `Exec`: the command is looked up with `LookPath` in the
folder of the executable; when that fails the execute string is used as it
is. -/
def resolveExecutable (P : Platform) (fs : FS) (ExecutableFolder execute : String) : String :=
  let execPath := execute
  let looked := LookPath P fs ExecutableFolder execPath []
  if looked.2 then looked.1 else execute

/-- The method `ShellJob.Exec`.  The assignment of lines 313-315 changes a
variable that is not read afterwards and is left out; the deferred write of the
end marker runs on every way out once the log is open. -/
def ShellJob.Exec (P : Platform) (fs : FS) (ExecutableFolder : String) (os : ProcessEnv)
    (self : ShellJob) : ExecResult :=
  let reopened : ShellJob × Option String :=
    match os.openError self.logfile with
    | none => (self, none)
    | some _ =>
      let self1 := { self with logfile := sanitizeLogfile self.logfile }
      (self1, os.openError self1.logfile)
  match reopened with
  | (self1, some e) =>
    { job := self1, opened := none, written := [], environment := [], killed := []
      printed := ["[" ++ self1.name ++ "] open log file(" ++ self1.logfile ++ ") failed," ++
        " " ++ e] }
  | (self1, none) =>
    let executePath := resolveExecutable P fs ExecutableFolder self1.execute
    let args := executePath :: self1.arguments
    let environments :=
      if self1.environments.length ≠ 0 then
        (os.environ ++ self1.environments)
      else
        (os.environ ++ self1.environments)
    let environments := environments ++ ["schd_job_id=" ++ FormatInt self1.id 10]
    let environments := environments ++ ["schd_job_name=" ++ self1.name]
    let run := startAndWait os self1.timeout
    { job := self1, opened := some self1.logfile
      written := [beginMarker] ++ execHeader (os.commandPath executePath) args ++ run.1 ++
        [endMarker]
      environment := environments, killed := run.2, printed := [] }

/-! ## States used in the proofs, and concrete inputs -/

/-- A job with mode `all`, used to test the mode matching. -/
def jobAll : ShellJob :=
  { id := 1, name := "nightly", mode := "all", enabled := true, queue := "", execute := "backup",
    directory := "", environments := [], arguments := [], logfile := "nightly.log", timeout := 0,
    expression := "", status := 0, attributes := [] }

/-- The file system after a rotation that went through: every backup has moved
up by one, the live log has become the first backup. -/
def shifted (fs : FS) (logfile : String) : FS := fun p =>
  if p = logfile then none
  else if p = logfile ++ ".0001" then fs logfile
  else if p = logfile ++ ".0002" then fs (logfile ++ ".0001")
  else if p = logfile ++ ".0003" then fs (logfile ++ ".0002")
  else if p = logfile ++ ".0004" then fs (logfile ++ ".0003")
  else if p = logfile ++ ".0005" then fs (logfile ++ ".0004")
  else fs p

/-- The file system after the file under `a` has moved to `b`. -/
def move (fs : FS) (a b : String) : FS := fun p =>
  if p = a then none else if p = b then fs a else fs p

/-- The operating system that refuses nothing. -/
def noFault : SysCall → Bool := fun _ => false

/-- A file system with a live log of exactly 5 MiB and all five backups. -/
def fsFull : FS := fun p =>
  if p = "job.log" then some ⟨5242880, false, "live"⟩
  else if p = "job.log.0001" then some ⟨11, false, "one"⟩
  else if p = "job.log.0002" then some ⟨12, false, "two"⟩
  else if p = "job.log.0003" then some ⟨13, false, "three"⟩
  else if p = "job.log.0004" then some ⟨14, false, "four"⟩
  else if p = "job.log.0005" then some ⟨15, false, "five"⟩
  else none

/-- A file system with a small live log and one backup. -/
def fsSmall : FS := fun p =>
  if p = "job.log" then some ⟨5242879, false, "live"⟩
  else if p = "job.log.0001" then some ⟨11, false, "one"⟩
  else none

/-- The state at program start with an empty file system. -/
def worldEmpty : World := ⟨Registry.empty, fun _ => none⟩

/-- An `Exec` that returns and changes nothing. -/
def execReturns : ShellJob → FS → ShellJob × FS × Bool := fun job fs => (job, fs, false)

/-- An `Exec` that panics. -/
def execPanics : ShellJob → FS → ShellJob × FS × Bool := fun job fs => (job, fs, true)

/-- An enabled idle job with mode "default", a queue and a log file. -/
def jobQueued : ShellJob :=
  { id := 7, name := "backup", mode := "default", enabled := true, queue := "disk",
    execute := "tar", directory := "", environments := ["A=1"], arguments := ["-c"],
    logfile := "job.log", timeout := 0, expression := "", status := 0, attributes := [] }

/-- An enabled idle job with no queue. -/
def jobPlain : ShellJob := { jobQueued with queue := "" }

/-- Run mode "prod", a hook that panics. -/
def envHookPanics : Env :=
  { RunMode := "prod", RunHook := some (fun _ => HookResult.panics), fault := noFault,
    Exec := execReturns }

/-- Run mode "prod", no hook, and an operating system that refuses every
remove and rename. -/
def envRefusing : Env :=
  { RunMode := "prod", RunHook := none, fault := fun _ => true, Exec := execReturns }

/-- Run mode "prod", no hook, an `Exec` that panics. -/
def envExecPanics : Env :=
  { RunMode := "prod", RunHook := none, fault := noFault, Exec := execPanics }

/-- The invariant of the registry: the names are distinct, the lock pointers
are distinct, and every pointer was handed out by the allocator. -/
def Registry.WF (r : Registry) : Prop :=
  (r.queues.map Prod.fst).Nodup ∧ (r.queues.map Prod.snd).Nodup ∧
    ∀ e ∈ r.queues, e.2 < r.next

/-- The queue name made of `n + 1` letters q. -/
def queueName (n : Nat) : String := String.mk (List.replicate (n + 1) 'q')

/-- The first `n` of the queue names q, qq, qqq, ... -/
def queueNames (n : Nat) : List String := (List.range n).map queueName

/-- The state a later run finds: the registry after further `GetQueueLock`
calls made in between, the file system as the earlier run left it. -/
def worldAfter (r : Result) (between : List String) : World :=
  ⟨callAll r.world.queues between, r.world.fs⟩

/-- Whether a candidate, made absolute, exists and is not a directory. -/
def isRegular (P : Platform) (fs : FS) (file : String) : Bool :=
  match fs (P.abs file) with
  | some st => !st.isDir
  | none => false

/-- The path separator of Windows, the backslash. -/
def winSep : String := String.singleton (Char.ofNat 92)

/-- Join the non-empty elements with a separator (the lexical clean-up that
`filepath.Join` also does is left out; it does not change which file a path
names). -/
def joinWith (sep : String) (elems : List String) : String :=
  sep.intercalate (elems.filter (fun e => decide (e ≠ "")))

/-- A Windows platform: paths with a drive letter are absolute, relative ones
are resolved against the working directory `C:\work`, nothing is on PATH. -/
def winPlatform : Platform :=
  { GOOS := "windows"
    IsAbs := fun p => match p.data with
      | _ :: ':' :: _ => true
      | _ => false
    Join := joinWith winSep
    abs := fun p => match p.data with
      | _ :: ':' :: _ => p
      | _ => "C:" ++ winSep ++ "work" ++ winSep ++ p
    execLookPath := fun _ => false }

/-- The search root `C:\app`. -/
def winRoot : String := "C:" ++ winSep ++ "app"

/-- A file system whose only file is `C:\app\tools\foo.sh`. -/
def winFS : FS := fun p =>
  if p = "C:" ++ winSep ++ "app" ++ winSep ++ "tools" ++ winSep ++ "foo.sh" then
    some ⟨20, false, "echo"⟩
  else none

/-- A POSIX platform: paths starting with a slash are absolute, relative ones
are resolved against the working directory `/srv/work`, nothing is on PATH. -/
def posixPlatform : Platform :=
  { GOOS := "linux"
    IsAbs := fun p => match p.data with
      | '/' :: _ => true
      | _ => false
    Join := joinWith "/"
    abs := fun p => match p.data with
      | '/' :: _ => p
      | _ => "/srv/work/" ++ p
    execLookPath := fun _ => false }

/-- A file system whose only file is `/opt/app/tools/foo.sh`. -/
def posixFS : FS := fun p =>
  if p = "/opt/app/tools/foo.sh" then some ⟨20, false, "echo"⟩ else none

/-- An operating system in which the log opens, the process starts with id
4242 and the timer fires before the process completes. -/
def osTimerFires : ProcessEnv :=
  { openError := fun _ => none, environ := ["PATH=/bin"], commandPath := fun p => p,
    startError := none, pid := 4242, wait := WaitResult.exited "exit status 0",
    selected := SelectCase.timerFired }

/-- The same operating system, with the process completing first. -/
def osProcessDone : ProcessEnv := { osTimerFires with selected := SelectCase.processDone }

/-- A job that sleeps ten seconds with a timeout of five. -/
def jobSleep : ShellJob :=
  { jobQueued with execute := "sleep", arguments := ["10"], timeout := 5000000000 }

/-! ## Theorems -/

/-! ### isMode -/

/-- C2, as stated, fails: a job whose mode is "all" does not match the run
mode "prod", although the claimed condition (job mode "" or "all", or ...)
holds for it. -/
theorem isMode_claim_counterexample :
    ¬ (jobAll.isMode "prod" = true ↔
        (jobAll.mode = "" ∨ jobAll.mode = "all" ∨ "prod" = "" ∨ "prod" = "all" ∨
          jobAll.mode = "default" ∨ jobAll.mode = "prod")) := by
  decide

/-- C2, amended: `isMode r` on a job with mode `m` is true exactly when `r` is
"" or "all", or `m` is "" or "default", or `m = r`; so a job whose mode is
unset or "default" matches every run mode, and a job whose mode is "all"
matches a run mode only when that is "", "all" . -/
theorem isMode_iff (self : ShellJob) (r : String) :
    (self.isMode r = true ↔
      (r = "" ∨ r = "all" ∨ self.mode = "" ∨ self.mode = "default" ∨ self.mode = r)) ∧
    ((self.mode = "" ∨ self.mode = "default") → ∀ r1, self.isMode r1 = true) ∧
    (self.mode = "all" → (self.isMode r = true ↔ (r = "" ∨ r = "all"))) := by
  have key : ∀ r1 : String, self.isMode r1 = true ↔
      (r1 = "" ∨ r1 = "all" ∨ self.mode = "" ∨ self.mode = "default" ∨ self.mode = r1) := by
    intro r1
    unfold ShellJob.isMode
    split_ifs with h1 h2 h3
    · refine ⟨fun _ => ?_, fun _ => rfl⟩
      rcases h1 with h | h
      · exact Or.inl h.symm
      · exact Or.inr (Or.inl h.symm)
    · refine ⟨fun _ => ?_, fun _ => rfl⟩
      rcases h2 with h | h
      · exact Or.inr (Or.inr (Or.inl h.symm))
      · exact Or.inr (Or.inr (Or.inr (Or.inl h.symm)))
    · exact ⟨fun _ => Or.inr (Or.inr (Or.inr (Or.inr h3))), fun _ => rfl⟩
    · constructor
      · intro h
        exact absurd h (by decide)
      · intro h
        exfalso
        rcases h with h | h | h | h | h
        · exact h1 (Or.inl h.symm)
        · exact h1 (Or.inr h.symm)
        · exact h2 (Or.inl h.symm)
        · exact h2 (Or.inr h.symm)
        · exact h3 h
  refine ⟨key r, ?_, ?_⟩
  · intro h r1
    rw [key r1]
    rcases h with h | h
    · exact Or.inr (Or.inr (Or.inl h))
    · exact Or.inr (Or.inr (Or.inr (Or.inl h)))
  · intro h
    rw [key r, h]
    constructor
    · intro hh
      rcases hh with hh | hh | hh | hh | hh
      · exact Or.inl hh
      · exact Or.inr hh
      · exact absurd hh (by decide)
      · exact absurd hh (by decide)
      · exact Or.inr hh.symm
    · intro hh
      rcases hh with hh | hh
      · exact Or.inl hh
      · exact Or.inr (Or.inl hh)

/-- C2, amended, at a job with mode "default" and the run mode "prod". -/
theorem isMode_iff_witness :
    ({ jobAll with mode := "default" } : ShellJob).isMode "prod" = true :=
  (isMode_iff { jobAll with mode := "default" } "prod").2.1 (Or.inr rfl) "prod"

/-! ### ToMap -/

/-- C7: `ToMap` yields exactly the keys type, command, arguments, attributes,
environments; type is "exec2", command is the execute string, arguments and
attributes are the declared ones, and environments is the declared entries in
order followed by exactly `schd_job_id=<id in decimal>` and
`schd_job_name=<name>`, of length n + 2. -/
theorem ToMap_spec (self : ShellJob) :
    self.ToMap.map Prod.fst = ["type", "command", "arguments", "attributes", "environments"] ∧
    self.ToMap.lookup "type" = some (Value.str "exec2") ∧
    self.ToMap.lookup "command" = some (Value.str self.execute) ∧
    self.ToMap.lookup "arguments" = some (Value.strs self.arguments) ∧
    self.ToMap.lookup "attributes" = some (Value.attrs self.attributes) ∧
    (∃ envs : List String,
      self.ToMap.lookup "environments" = some (Value.strs envs) ∧
      envs.length = self.environments.length + 2 ∧
      envs.take self.environments.length = self.environments ∧
      envs.drop self.environments.length =
        ["schd_job_id=" ++ toString self.id, "schd_job_name=" ++ self.name]) := by
  have hfmt : FormatInt self.id 10 = toString self.id := by
    cases self.id <;> rfl
  refine ⟨rfl, rfl, rfl, rfl, rfl, _, rfl, ?_, ?_, ?_⟩
  · simp
  · simp
  · simp [hfmt]

/-! ### rotate_file -/

theorem Sprintf04d_values :
    Sprintf04d 1 = ".0001" ∧ Sprintf04d 2 = ".0002" ∧ Sprintf04d 3 = ".0003" ∧
    Sprintf04d 4 = ".0004" ∧ Sprintf04d 5 = ".0005" := by decide

theorem append_ne_append (s a b : String) (h : a ≠ b) : s ++ a ≠ s ++ b := by
  intro e
  apply h
  have e1 := congrArg String.data e
  simp only [String.data_append] at e1
  exact String.ext (List.append_cancel_left e1)

theorem ne_append_self (s a : String) (h : a ≠ "") : s ≠ s ++ a := by
  intro e
  apply h
  have e1 := congrArg String.data e
  simp only [String.data_append] at e1
  have e2 : a.data = [] := by simpa using e1
  exact String.ext e2


theorem Rename_eq_move (fault : SysCall → Bool) (hok : ∀ c, fault c = false) (fs : FS)
    (a b : String) (f : File) (ha : fs a = some f) (hab : a ≠ b) :
    Rename fault fs a b = (move fs a b, none) := by
  have hmv : (fs.set b (some f)).set a none = move fs a b := by
    funext p
    unfold FS.set move
    by_cases h1 : p = a
    · simp [h1]
    · by_cases h2 : p = b
      · simp [h1, h2, ha]
      · simp [h1, h2]
  simp [Rename, hok, ha, hab, hmv]

theorem move_absent (fs : FS) (a b : String) (ha : fs a = none) (hb : fs b = none) :
    move fs a b = fs := by
  funext p
  unfold move
  by_cases h1 : p = a
  · simp [h1, ha]
  · by_cases h2 : p = b
    · simp [h1, h2, ha, hb]
    · simp [h1, h2]

theorem rotateLoop_step (fault : SysCall → Bool) (hok : ∀ c, fault c = false)
    (logfile : String) (num : Nat) (fs : FS) (fname2 : String)
    (hne : logfile ++ Sprintf04d (num + 1) ≠ fname2) (hnone : fs fname2 = none) :
    rotateLoop fault logfile (num + 1) fs fname2 =
      rotateLoop fault logfile num (move fs (logfile ++ Sprintf04d (num + 1)) fname2)
        (logfile ++ Sprintf04d (num + 1)) := by
  rcases h : fs (logfile ++ Sprintf04d (num + 1)) with _ | f
  · simp only [rotateLoop, Stat, h, move_absent fs _ _ h hnone]
  · simp only [rotateLoop, Stat, h, Rename_eq_move fault hok fs _ _ f h hne]

theorem rotate_file_eq_shifted (fault : SysCall → Bool) (fs : FS) (logfile : String) (f : File)
    (hlog : fs logfile = some f) (hsz : maxBytes ≤ f.size) (hok : ∀ c, fault c = false) :
    rotate_file fault fs logfile = (shifted fs logfile, none) := by
  obtain ⟨e1, e2, e3, e4, e5⟩ := Sprintf04d_values
  have d01 := ne_append_self logfile ".0001" (by decide)
  have d02 := ne_append_self logfile ".0002" (by decide)
  have d03 := ne_append_self logfile ".0003" (by decide)
  have d04 := ne_append_self logfile ".0004" (by decide)
  have d05 := ne_append_self logfile ".0005" (by decide)
  have d12 := append_ne_append logfile ".0001" ".0002" (by decide)
  have d13 := append_ne_append logfile ".0001" ".0003" (by decide)
  have d14 := append_ne_append logfile ".0001" ".0004" (by decide)
  have d15 := append_ne_append logfile ".0001" ".0005" (by decide)
  have d23 := append_ne_append logfile ".0002" ".0003" (by decide)
  have d24 := append_ne_append logfile ".0002" ".0004" (by decide)
  have d25 := append_ne_append logfile ".0002" ".0005" (by decide)
  have d34 := append_ne_append logfile ".0003" ".0004" (by decide)
  have d35 := append_ne_append logfile ".0003" ".0005" (by decide)
  have d45 := append_ne_append logfile ".0004" ".0005" (by decide)
  have hsz1 : ¬ f.size < maxBytes := not_lt.mpr hsz
  -- the state once the oldest backup is gone
  have hrem : (match Stat fs (logfile ++ Sprintf04d maxNum) with
        | Except.ok _ => Remove fault fs (logfile ++ Sprintf04d maxNum)
        | Except.error _ => (fs, none)) = (fs.set (logfile ++ ".0005") none, none) := by
    simp only [maxNum, e5]
    rcases h5 : fs (logfile ++ ".0005") with _ | f5
    · have : fs.set (logfile ++ ".0005") none = fs := by
        funext p
        unfold FS.set
        by_cases hp : p = logfile ++ ".0005"
        · simp [hp, h5]
        · simp [hp]
      simp [Stat, h5, this]
    · simp [Stat, h5, Remove, hok]
  have hst : Stat fs logfile = Except.ok f := by simp [Stat, hlog]
  unfold rotate_file
  rw [hst]
  simp only [hsz1, if_false]
  rw [hrem]
  simp only []
  have hloop : rotateLoop fault logfile (maxNum - 1) (fs.set (logfile ++ ".0005") none)
      (logfile ++ Sprintf04d maxNum) =
      (move (move (move (move (fs.set (logfile ++ ".0005") none)
        (logfile ++ ".0004") (logfile ++ ".0005"))
        (logfile ++ ".0003") (logfile ++ ".0004"))
        (logfile ++ ".0002") (logfile ++ ".0003"))
        (logfile ++ ".0001") (logfile ++ ".0002"), logfile ++ ".0001", none) := by
    show rotateLoop fault logfile (3 + 1) _ (logfile ++ Sprintf04d 5) = _
    rw [rotateLoop_step fault hok logfile 3 _ _ (by rw [e4, e5]; exact d45)
      (by simp [FS.set, e5])]
    rw [rotateLoop_step fault hok logfile 2 _ _ (by rw [e3, e4]; exact d34)
      (by simp [move, e4])]
    rw [rotateLoop_step fault hok logfile 1 _ _ (by rw [e2, e3]; exact d23)
      (by simp [move, e3])]
    rw [rotateLoop_step fault hok logfile 0 _ _ (by rw [e1, e2]; exact d12)
      (by simp [move, e2])]
    simp only [rotateLoop, e1, e2, e3, e4, e5]
  rw [hloop]
  simp only []
  rw [Rename_eq_move fault hok _ logfile (logfile ++ ".0001") f
    (by simp [move, FS.set, d01, d02, d03, d04, d05, hlog]) d01]
  congr 1
  funext p
  unfold shifted move FS.set
  by_cases h0 : p = logfile
  · subst h0
    simp [d01, d02, d03, d04, d05, d12, d13, d14, d15, d23, d24, d25, d34, d35, d45, d01.symm, d02.symm, d03.symm, d04.symm, d05.symm, d12.symm, d13.symm, d14.symm, d15.symm, d23.symm, d24.symm, d25.symm, d34.symm, d35.symm, d45.symm]
  by_cases h1 : p = logfile ++ ".0001"
  · subst h1
    simp [d01, d02, d03, d04, d05, d12, d13, d14, d15, d23, d24, d25, d34, d35, d45, d01.symm, d02.symm, d03.symm, d04.symm, d05.symm, d12.symm, d13.symm, d14.symm, d15.symm, d23.symm, d24.symm, d25.symm, d34.symm, d35.symm, d45.symm]
  by_cases h2 : p = logfile ++ ".0002"
  · subst h2
    simp [d01, d02, d03, d04, d05, d12, d13, d14, d15, d23, d24, d25, d34, d35, d45, d01.symm, d02.symm, d03.symm, d04.symm, d05.symm, d12.symm, d13.symm, d14.symm, d15.symm, d23.symm, d24.symm, d25.symm, d34.symm, d35.symm, d45.symm]
  by_cases h3 : p = logfile ++ ".0003"
  · subst h3
    simp [d01, d02, d03, d04, d05, d12, d13, d14, d15, d23, d24, d25, d34, d35, d45, d01.symm, d02.symm, d03.symm, d04.symm, d05.symm, d12.symm, d13.symm, d14.symm, d15.symm, d23.symm, d24.symm, d25.symm, d34.symm, d35.symm, d45.symm]
  by_cases h4 : p = logfile ++ ".0004"
  · subst h4
    simp [d01, d02, d03, d04, d05, d12, d13, d14, d15, d23, d24, d25, d34, d35, d45, d01.symm, d02.symm, d03.symm, d04.symm, d05.symm, d12.symm, d13.symm, d14.symm, d15.symm, d23.symm, d24.symm, d25.symm, d34.symm, d35.symm, d45.symm]
  by_cases h5 : p = logfile ++ ".0005"
  · subst h5
    simp [d01, d02, d03, d04, d05, d12, d13, d14, d15, d23, d24, d25, d34, d35, d45, d01.symm, d02.symm, d03.symm, d04.symm, d05.symm, d12.symm, d13.symm, d14.symm, d15.symm, d23.symm, d24.symm, d25.symm, d34.symm, d35.symm, d45.symm]
  simp [h0, h1, h2, h3, h4, h5]

/-- C1: when the live log exists with at least 5 MiB and no remove or rename
is refused, `rotate_file` returns no error and afterwards the live log path is
absent, `.0001` holds the prior live log, `.000(k+1)` holds exactly what
`.000k` held (absent when that was absent) for k = 1..4, every other path is
unchanged, and the prior content of `.0005` is stored nowhere: whatever a path
holds afterwards comes from a path other than `.0005`. -/
theorem rotate_file_shifts (fault : SysCall → Bool) (fs : FS) (logfile : String) (f : File)
    (hlog : fs logfile = some f) (hsz : 5 * 1024 * 1024 ≤ f.size)
    (hok : ∀ c, fault c = false) :
    (rotate_file fault fs logfile).2 = none ∧
    (rotate_file fault fs logfile).1 logfile = none ∧
    (rotate_file fault fs logfile).1 (logfile ++ ".0001") = some f ∧
    (rotate_file fault fs logfile).1 (logfile ++ ".0002") = fs (logfile ++ ".0001") ∧
    (rotate_file fault fs logfile).1 (logfile ++ ".0003") = fs (logfile ++ ".0002") ∧
    (rotate_file fault fs logfile).1 (logfile ++ ".0004") = fs (logfile ++ ".0003") ∧
    (rotate_file fault fs logfile).1 (logfile ++ ".0005") = fs (logfile ++ ".0004") ∧
    (∀ p, p ∉ [logfile, logfile ++ ".0001", logfile ++ ".0002", logfile ++ ".0003",
        logfile ++ ".0004", logfile ++ ".0005"] → (rotate_file fault fs logfile).1 p = fs p) ∧
    (∀ p c, (rotate_file fault fs logfile).1 p = some c →
      ∃ q, q ≠ logfile ++ ".0005" ∧ fs q = some c) ∧
    (∀ old, fs (logfile ++ ".0005") = some old →
      (∀ q, q ≠ logfile ++ ".0005" → fs q ≠ some old) →
      ∀ p, (rotate_file fault fs logfile).1 p ≠ some old) := by
  have d01 := ne_append_self logfile ".0001" (by decide)
  have d02 := ne_append_self logfile ".0002" (by decide)
  have d03 := ne_append_self logfile ".0003" (by decide)
  have d04 := ne_append_self logfile ".0004" (by decide)
  have d05 := ne_append_self logfile ".0005" (by decide)
  have d12 := append_ne_append logfile ".0001" ".0002" (by decide)
  have d13 := append_ne_append logfile ".0001" ".0003" (by decide)
  have d14 := append_ne_append logfile ".0001" ".0004" (by decide)
  have d15 := append_ne_append logfile ".0001" ".0005" (by decide)
  have d23 := append_ne_append logfile ".0002" ".0003" (by decide)
  have d24 := append_ne_append logfile ".0002" ".0004" (by decide)
  have d25 := append_ne_append logfile ".0002" ".0005" (by decide)
  have d34 := append_ne_append logfile ".0003" ".0004" (by decide)
  have d35 := append_ne_append logfile ".0003" ".0005" (by decide)
  have d45 := append_ne_append logfile ".0004" ".0005" (by decide)
  have hprov : ∀ p c, shifted fs logfile p = some c →
      ∃ q, q ≠ logfile ++ ".0005" ∧ fs q = some c := by
    intro p c hp
    unfold shifted at hp
    split_ifs at hp with h0 h1 h2 h3 h4 h5
    · exact ⟨logfile, d05, hp⟩
    · exact ⟨_, d15, hp⟩
    · exact ⟨_, d25, hp⟩
    · exact ⟨_, d35, hp⟩
    · exact ⟨_, d45, hp⟩
    · exact ⟨p, h5, hp⟩
  rw [rotate_file_eq_shifted fault fs logfile f hlog hsz hok]
  refine ⟨rfl, ?_, ?_, ?_, ?_, ?_, ?_, ?_, hprov, ?_⟩
  · simp [shifted]
  · simp [shifted, d01.symm, hlog]
  · simp [shifted, d02.symm, d12.symm]
  · simp [shifted, d03.symm, d13.symm, d23.symm]
  · simp [shifted, d04.symm, d14.symm, d24.symm, d34.symm]
  · simp [shifted, d05.symm, d15.symm, d25.symm, d35.symm, d45.symm]
  · intro p hp
    simp only [List.mem_cons, List.mem_nil_iff, or_false, not_or] at hp
    obtain ⟨h0, h1, h2, h3, h4, h5⟩ := hp
    simp [shifted, h0, h1, h2, h3, h4, h5]
  · intro old _ hother p hp
    obtain ⟨q, hq, hfs⟩ := hprov p old hp
    exact hother q hq hfs

/-- C1 at a file system with a 5 MiB live log and five backups. -/
theorem rotate_file_shifts_witness :
    fsFull "job.log" = some ⟨5242880, false, "live"⟩ ∧
    (rotate_file noFault fsFull "job.log").2 = none ∧
    (rotate_file noFault fsFull "job.log").1 "job.log" = none ∧
    (rotate_file noFault fsFull "job.log").1 ("job.log" ++ ".0001") =
      some ⟨5242880, false, "live"⟩ ∧
    (rotate_file noFault fsFull "job.log").1 ("job.log" ++ ".0005") =
      fsFull ("job.log" ++ ".0004") :=
  have h := rotate_file_shifts noFault fsFull "job.log" ⟨5242880, false, "live"⟩ rfl
    (by decide) (fun _ => rfl)
  ⟨rfl, h.1, h.2.1, h.2.2.1, h.2.2.2.2.2.2.1⟩

/-- C9, as stated, fails: under the path `job.log/x` no log file exists, yet
`rotate_file` returns an error, because `job.log` is a regular file and
`os.Stat` fails with "not a directory", for which `os.IsNotExist` is false. -/
theorem rotate_file_absent_claim_counterexample :
    fsFull "job.log/x" = none ∧
    (rotate_file noFault fsFull "job.log/x").2 = some (OsError.notDir "job.log/x") ∧
    (OsError.notDir "job.log/x").IsNotExist = false := by
  refine ⟨by decide, by decide, rfl⟩

/-- C9, amended: when `os.Stat` reports the live log as not existing (nothing
is stored under its path and the path does not lead through a regular file),
or the log exists with fewer than 5242880 bytes, `rotate_file` returns no error
and leaves the whole file system as it was; when nothing is stored under the
path because it leads through a regular file, `rotate_file` returns the error
of `os.Stat`, which is not a not-exist error, and also leaves the file system
as it was; a live log of exactly 5242880 bytes is rotated (with no remove or
rename refused: every backup moves up by one, the log becomes `.0001` and the
live path is absent). -/
theorem rotate_file_noop_or_stat_error (fault : SysCall → Bool) (fs : FS)
    (logfile : String) :
    (fs logfile = none → blockedByFile fs logfile = false →
      rotate_file fault fs logfile = (fs, none)) ∧
    (∀ f, fs logfile = some f → f.size < 5242880 →
      rotate_file fault fs logfile = (fs, none)) ∧
    (fs logfile = none → blockedByFile fs logfile = true →
      rotate_file fault fs logfile = (fs, some (OsError.notDir logfile)) ∧
      (OsError.notDir logfile).IsNotExist = false) ∧
    (∀ f, fs logfile = some f → f.size = 5242880 → (∀ c, fault c = false) →
      (rotate_file fault fs logfile).2 = none ∧
      (rotate_file fault fs logfile).1 logfile = none ∧
      (rotate_file fault fs logfile).1 (logfile ++ ".0001") = some f ∧
      (rotate_file fault fs logfile).1 (logfile ++ ".0002") = fs (logfile ++ ".0001") ∧
      (rotate_file fault fs logfile).1 (logfile ++ ".0003") = fs (logfile ++ ".0002") ∧
      (rotate_file fault fs logfile).1 (logfile ++ ".0004") = fs (logfile ++ ".0003") ∧
      (rotate_file fault fs logfile).1 (logfile ++ ".0005") = fs (logfile ++ ".0004")) := by
  refine ⟨?_, ?_, ?_, ?_⟩
  · intro h hb
    simp [rotate_file, Stat, h, hb, OsError.IsNotExist]
  · intro f h hsz
    have : f.size < maxBytes := by
      unfold maxBytes
      omega
    simp [rotate_file, Stat, h, this]
  · intro h hb
    simp [rotate_file, Stat, h, hb, OsError.IsNotExist]
  · intro f h hsz hok
    have hge : maxBytes ≤ f.size := by
      unfold maxBytes
      omega
    rw [rotate_file_eq_shifted fault fs logfile f h hge hok]
    have d01 := ne_append_self logfile ".0001" (by decide)
    have d02 := ne_append_self logfile ".0002" (by decide)
    have d03 := ne_append_self logfile ".0003" (by decide)
    have d04 := ne_append_self logfile ".0004" (by decide)
    have d05 := ne_append_self logfile ".0005" (by decide)
    have d12 := append_ne_append logfile ".0001" ".0002" (by decide)
    have d13 := append_ne_append logfile ".0001" ".0003" (by decide)
    have d14 := append_ne_append logfile ".0001" ".0004" (by decide)
    have d15 := append_ne_append logfile ".0001" ".0005" (by decide)
    have d23 := append_ne_append logfile ".0002" ".0003" (by decide)
    have d24 := append_ne_append logfile ".0002" ".0004" (by decide)
    have d25 := append_ne_append logfile ".0002" ".0005" (by decide)
    have d34 := append_ne_append logfile ".0003" ".0004" (by decide)
    have d35 := append_ne_append logfile ".0003" ".0005" (by decide)
    have d45 := append_ne_append logfile ".0004" ".0005" (by decide)
    refine ⟨rfl, ?_, ?_, ?_, ?_, ?_, ?_⟩
    · simp [shifted]
    · simp [shifted, d01.symm, h]
    · simp [shifted, d02.symm, d12.symm]
    · simp [shifted, d03.symm, d13.symm, d23.symm]
    · simp [shifted, d04.symm, d14.symm, d24.symm, d34.symm]
    · simp [shifted, d05.symm, d15.symm, d25.symm, d35.symm, d45.symm]

/-- C9, amended, at a live log one byte below the threshold, at an absent log
in an empty file system, at a path that leads through a regular file, and at a
live log of exactly 5242880 bytes. -/
theorem rotate_file_noop_or_stat_error_witness :
    rotate_file noFault fsSmall "job.log" = (fsSmall, none) ∧
    rotate_file noFault fsSmall "other.log" = (fsSmall, none) ∧
    rotate_file noFault fsSmall "job.log/x" = (fsSmall, some (OsError.notDir "job.log/x")) ∧
    (rotate_file noFault fsFull "job.log").1 "job.log" = none :=
  have h := rotate_file_noop_or_stat_error noFault
  ⟨(h fsSmall "job.log").2.1 ⟨5242879, false, "live"⟩ rfl (by decide),
   (h fsSmall "other.log").1 rfl (by decide),
   ((h fsSmall "job.log/x").2.2.1 rfl (by decide)).1,
   ((h fsFull "job.log").2.2.2 ⟨5242880, false, "live"⟩ rfl rfl (fun _ => rfl)).2.1⟩

/-! ### Run -/

theorem isMode_status (self : ShellJob) (s : Int) (mode : String) :
    ({ self with status := s } : ShellJob).isMode mode = self.isMode mode := rfl

theorem runExec_callsExec (env : Env) (w : World) (self : ShellJob) :
    (runExec env w self).trace.any Event.isExec = true := by
  simp [runExec, Event.isExec]

theorem runExec_statusSeen (env : Env) (w : World) (self : ShellJob) :
    ∀ e ∈ (runExec env w self).trace, ∀ s, e.statusSeen = some s → s = self.status := by
  intro e he s hs
  simp only [runExec, List.mem_append, List.mem_singleton, List.mem_cons,
    List.not_mem_nil, or_false] at he
  rcases he with (he | he) | he
  · subst he
    simp [Event.statusSeen] at hs
  · cases hrot : (rotate_file env.fault w.fs self.logfile).2 with
    | none => simp [hrot] at he
    | some err =>
      simp only [hrot, List.mem_singleton] at he
      subst he
      simp [Event.statusSeen] at hs
  · subst he
    simp only [Event.statusSeen, Option.some.injEq] at hs
    exact hs.symm

theorem runHooked_callsExec (env : Env) (w : World) (self : ShellJob) :
    (runHooked env w self).trace.any Event.isExec = true ↔
      (env.RunHook = none ∨
        ∃ hook, env.RunHook = some hook ∧ hook self = HookResult.returnsFalse) := by
  unfold runHooked
  cases hh : env.RunHook with
  | none => simp [runExec_callsExec]
  | some hook =>
    cases hr : hook self with
    | panics => simp [hr, Event.isExec]
    | returnsTrue => simp [hr, Event.isExec]
    | returnsFalse =>
      have := runExec_callsExec env w self
      simp [hr, Event.isExec, this]

theorem runHooked_statusSeen (env : Env) (w : World) (self : ShellJob) :
    ∀ e ∈ (runHooked env w self).trace, ∀ s, e.statusSeen = some s → s = self.status := by
  intro e he s hs
  unfold runHooked at he
  cases hh : env.RunHook with
  | none =>
    simp only [hh] at he
    exact runExec_statusSeen env w self e he s hs
  | some hook =>
    simp only [hh] at he
    cases hr : hook self with
    | panics =>
      simp only [hr, List.mem_singleton] at he
      subst he
      simp only [Event.statusSeen, Option.some.injEq] at hs
      exact hs.symm
    | returnsTrue =>
      simp only [hr, List.mem_cons, List.mem_singleton, List.not_mem_nil, or_false] at he
      rcases he with he | he
      · subst he
        simp only [Event.statusSeen, Option.some.injEq] at hs
        exact hs.symm
      · subst he
        simp [Event.statusSeen] at hs
    | returnsFalse =>
      simp only [hr, List.mem_cons] at he
      rcases he with he | he
      · subst he
        simp only [Event.statusSeen, Option.some.injEq] at hs
        exact hs.symm
      · exact runExec_statusSeen env w self e he s hs

theorem runQueued_callsExec (env : Env) (w : World) (self : ShellJob)
    (hq : self.queue = "" ∨ (GetQueueLock w.queues self.queue).2 ≠ none) :
    (runQueued env w self).trace.any Event.isExec = true ↔
      (env.RunHook = none ∨
        ∃ hook, env.RunHook = some hook ∧ hook self = HookResult.returnsFalse) := by
  unfold runQueued
  by_cases hqe : "" ≠ self.queue
  · have hret : (GetQueueLock w.queues self.queue).2 ≠ none := by
      rcases hq with hq | hq
      · exact absurd hq.symm hqe
      · exact hq
    rcases hg : GetQueueLock w.queues self.queue with ⟨reg, _ | q⟩
    · rw [hg] at hret
      exact absurd rfl hret
    · have := runHooked_callsExec env { w with queues := reg } self
      rw [if_pos hqe, ← this]
      simp [Event.isExec]
  · rw [if_neg hqe]
    exact runHooked_callsExec env w self

theorem runQueued_statusSeen (env : Env) (w : World) (self : ShellJob) :
    ∀ e ∈ (runQueued env w self).trace, ∀ s, e.statusSeen = some s → s = self.status := by
  intro e he s hs
  unfold runQueued at he
  by_cases hqe : "" ≠ self.queue
  · rw [if_pos hqe] at he
    rcases hg : GetQueueLock w.queues self.queue with ⟨reg, _ | q⟩
    · simp [hg] at he
    · simp only [hg, List.mem_append, List.mem_cons, List.mem_singleton, List.not_mem_nil,
        or_false] at he
      rcases he with ((he | he | he) | he) | (he | he)
      · subst he
        simp [Event.statusSeen] at hs
      · subst he
        simp [Event.statusSeen] at hs
      · subst he
        simp [Event.statusSeen] at hs
      · exact runHooked_statusSeen env _ self e he s hs
      · subst he
        simp [Event.statusSeen] at hs
      · subst he
        simp [Event.statusSeen] at hs
  · rw [if_neg hqe] at he
    exact runHooked_statusSeen env w self e he s hs

theorem Run_busy (env : Env) (w : World) (self : ShellJob) (hs : self.status ≠ 0) :
    self.Run env w =
      { job := self, world := w
        trace := [Event.println ("[" ++ self.name ++ "] running!")], panicked := none } := by
  unfold ShellJob.Run
  rw [if_pos hs]

theorem Run_disabled (env : Env) (w : World) (self : ShellJob) (hs : self.status = 0)
    (hen : self.enabled = false) :
    self.Run env w =
      { job := { self with status := 0 }, world := w
        trace := [Event.println ("[" ++ self.name ++ "] is disabled.")], panicked := none } := by
  unfold ShellJob.Run
  rw [if_neg (not_not.mpr hs)]
  dsimp only
  have hen1 : ¬ self.enabled = true := by simp [hen]
  rw [if_pos hen1]

theorem Run_mismatch (env : Env) (w : World) (self : ShellJob) (hs : self.status = 0)
    (hen : self.enabled = true) (hm : self.isMode env.RunMode = false) :
    self.Run env w =
      { job := { self with status := 0 }, world := w
        trace := [Event.println ("[" ++ self.name ++ "] should run on \x27" ++ self.mode ++
          "\x27, but current mode is \x27" ++ env.RunMode ++ "\x27.")]
        panicked := none } := by
  unfold ShellJob.Run
  rw [if_neg (not_not.mpr hs)]
  dsimp only
  have hm1 : ¬ ({ self with status := 1 } : ShellJob).isMode env.RunMode = true := by
    rw [isMode_status, hm]
    decide
  rw [if_neg (not_not.mpr hen), if_pos hm1]

theorem Run_guarded (env : Env) (w : World) (self : ShellJob) (hs : self.status = 0)
    (hen : self.enabled = true) (hm : self.isMode env.RunMode = true) :
    self.Run env w =
      { runQueued env w { self with status := 1 } with
        job := { (runQueued env w { self with status := 1 }).job with status := 0 } } := by
  unfold ShellJob.Run
  rw [if_neg (not_not.mpr hs)]
  dsimp only
  have hm1 : ({ self with status := 1 } : ShellJob).isMode env.RunMode = true := hm
  rw [if_neg (not_not.mpr hen), if_neg (not_not.mpr hm1)]

/-- C3, as stated, fails: with a hook that panics, the job is idle, enabled
and in mode, no hook returns true, the queue lock is not even asked for, and
yet `Exec` is not called. -/
theorem Run_calls_Exec_claim_counterexample :
    jobPlain.queue = "" ∧
    ¬ ((jobPlain.Run envHookPanics worldEmpty).callsExec = true ↔
        (jobPlain.status = 0 ∧ jobPlain.enabled = true ∧
          jobPlain.isMode envHookPanics.RunMode = true ∧
          ¬ ∃ hook, envHookPanics.RunHook = some hook ∧
            hook { jobPlain with status := 1 } = HookResult.returnsTrue)) := by
  refine ⟨rfl, ?_⟩
  intro h
  have hno : (jobPlain.Run envHookPanics worldEmpty).callsExec = false := by rfl
  have hrhs : jobPlain.status = 0 ∧ jobPlain.enabled = true ∧
      jobPlain.isMode envHookPanics.RunMode = true ∧
      ¬ ∃ hook, envHookPanics.RunHook = some hook ∧
        hook { jobPlain with status := 1 } = HookResult.returnsTrue := by
    refine ⟨rfl, rfl, by decide, ?_⟩
    rintro ⟨hook, h1, h2⟩
    have h3 : hook = fun _ => HookResult.panics := by
      have h4 : some (fun _ : ShellJob => HookResult.panics) = some hook := h1
      exact (Option.some.inj h4).symm
    rw [h3] at h2
    exact absurd h2 (by decide)
  rw [h.mpr hrhs] at hno
  exact absurd hno (by decide)

/-- C3, amended: when the queue lock is obtained without a fault, `Run` calls
`Exec` exactly when the status flag was 0 at entry, the job is enabled,
`isMode RunMode` holds, and either no hook is registered or the hook returns
false (a hook that panics, like one that returns true, keeps `Exec` from being
called); whatever `rotate_file` returns does not matter.  When the flag is not
0, or the job is disabled, or the mode does not match, `Run` only writes log
lines: no queue lock, no hook, no rotation, no `Exec`, registry and file system
untouched. -/
theorem Run_calls_Exec_iff (env : Env) (w : World) (self : ShellJob)
    (hq : self.queue = "" ∨ (GetQueueLock w.queues self.queue).2 ≠ none) :
    ((self.Run env w).callsExec = true ↔
      (self.status = 0 ∧ self.enabled = true ∧ self.isMode env.RunMode = true ∧
        (env.RunHook = none ∨
          ∃ hook, env.RunHook = some hook ∧
            hook { self with status := 1 } = HookResult.returnsFalse))) ∧
    ((self.status ≠ 0 ∨ self.enabled = false ∨ self.isMode env.RunMode = false) →
      (self.Run env w).world.queues = w.queues ∧
      (self.Run env w).world.fs = w.fs ∧
      (self.Run env w).trace.all Event.isPrintln = true ∧
      (self.Run env w).panicked = none) := by
  unfold Result.callsExec
  by_cases hs : self.status = 0
  · rcases Bool.eq_false_or_eq_true self.enabled with hen | hen
    · rcases Bool.eq_false_or_eq_true (self.isMode env.RunMode) with hm | hm
      · rw [Run_guarded env w self hs hen hm]
        constructor
        · have := runQueued_callsExec env w { self with status := 1 } hq
          constructor
          · intro h
            exact ⟨hs, hen, hm, this.mp h⟩
          · intro h
            exact this.mpr h.2.2.2
        · rintro (h | h | h)
          · exact absurd hs h
          · rw [hen] at h
            exact absurd h (by decide)
          · rw [hm] at h
            exact absurd h (by decide)
      · rw [Run_mismatch env w self hs hen hm]
        simp [Event.isExec, Event.isPrintln, hm]
    · rw [Run_disabled env w self hs hen]
      simp [Event.isExec, Event.isPrintln, hen]
  · rw [Run_busy env w self hs]
    simp [Event.isExec, Event.isPrintln, hs]

/-- C3, amended, at a queued job whose log rotation fails (every remove is
refused): `Exec` is called all the same. -/
theorem Run_calls_Exec_iff_witness :
    (rotate_file envRefusing.fault fsFull jobQueued.logfile).2 ≠ none ∧
    (jobQueued.Run envRefusing ⟨Registry.empty, fsFull⟩).callsExec = true :=
  ⟨by decide,
   (Run_calls_Exec_iff envRefusing ⟨Registry.empty, fsFull⟩ jobQueued
      (Or.inr (by decide))).1.mpr ⟨rfl, rfl, by decide, Or.inl rfl⟩⟩

/-- C10: a `Run` entered with the status flag at 0 shows the flag at 1 to the
hook and to `Exec` and ends with the flag at 0, however it ends (disabled, mode
mismatch, handled by the hook, executed, or a panic in the queue acquisition,
the hook or `Exec`); a `Run` entered with the flag at 1 leaves the job as it
was, flag at 1, and only writes a log line. -/
theorem Run_resets_status (env : Env) (w : World) (self : ShellJob) :
    (self.status = 0 →
      (self.Run env w).job.status = 0 ∧
      ∀ e ∈ (self.Run env w).trace, ∀ s, e.statusSeen = some s → s = 1) ∧
    (self.status = 1 →
      (self.Run env w).job = self ∧ (self.Run env w).job.status = 1 ∧
      (self.Run env w).trace.all Event.isPrintln = true ∧
      (self.Run env w).panicked = none) := by
  constructor
  · intro hs
    rcases Bool.eq_false_or_eq_true self.enabled with hen | hen
    · rcases Bool.eq_false_or_eq_true (self.isMode env.RunMode) with hm | hm
      · rw [Run_guarded env w self hs hen hm]
        refine ⟨rfl, ?_⟩
        intro e he s hseen
        exact runQueued_statusSeen env w { self with status := 1 } e he s hseen
      · rw [Run_mismatch env w self hs hen hm]
        refine ⟨rfl, ?_⟩
        intro e he s hseen
        simp only [List.mem_singleton] at he
        subst he
        simp [Event.statusSeen] at hseen
    · rw [Run_disabled env w self hs hen]
      refine ⟨rfl, ?_⟩
      intro e he s hseen
      simp only [List.mem_singleton] at he
      subst he
      simp [Event.statusSeen] at hseen
  · intro hs
    have hne : self.status ≠ 0 := by
      rw [hs]
      decide
    rw [Run_busy env w self hne]
    exact ⟨rfl, hs, by simp [Event.isPrintln], rfl⟩

/-- C10 at a run that ends in a panic of `Exec`, and at a job already
running. -/
theorem Run_resets_status_witness :
    (jobQueued.Run envExecPanics worldEmpty).panicked = some "Exec" ∧
    (jobQueued.Run envExecPanics worldEmpty).job.status = 0 ∧
    (({ jobQueued with status := 1 } : ShellJob).Run envExecPanics worldEmpty).job.status = 1 :=
  ⟨by rfl,
   ((Run_resets_status envExecPanics worldEmpty jobQueued).1 rfl).1,
   ((Run_resets_status envExecPanics worldEmpty { jobQueued with status := 1 }).2 rfl).2.1⟩

/-! ### GetQueueLock -/

theorem mapGet_eq_none_iff (m : List (String × Nat)) (k : String) :
    mapGet m k = none ↔ k ∉ m.map Prod.fst := by
  induction m with
  | nil => simp [mapGet]
  | cons e rest ih =>
    obtain ⟨k1, v⟩ := e
    by_cases h : k1 = k
    · simp [mapGet, h]
    · have h1 : ¬ k = k1 := fun e => h e.symm
      simp [mapGet, h, h1, ih]

theorem mapGet_some_mem (m : List (String × Nat)) (k : String) (v : Nat)
    (h : mapGet m k = some v) : (k, v) ∈ m := by
  induction m with
  | nil => simp [mapGet] at h
  | cons e rest ih =>
    obtain ⟨k1, v1⟩ := e
    by_cases hk : k1 = k
    · simp only [mapGet, hk, if_true, Option.some.injEq] at h
      simp [hk, h]
    · simp only [mapGet, hk, if_false] at h
      exact List.mem_cons_of_mem _ (ih h)

theorem mapSet_absent (m : List (String × Nat)) (k : String) (v : Nat)
    (h : mapGet m k = none) : mapSet m k v = (k, v) :: m := by
  unfold mapSet
  congr 1
  rw [List.filter_eq_self]
  intro e he
  have hk : k ∉ m.map Prod.fst := (mapGet_eq_none_iff m k).mp h
  have : e.1 ≠ k := by
    intro hek
    apply hk
    rw [← hek]
    exact List.mem_map_of_mem Prod.fst he
  simp [this]

theorem GetQueueLock_found (r : Registry) (name : String) (q : Nat)
    (h : mapGet r.queues name = some q) :
    GetQueueLock r name = (r, if r.queues.length > 1000 then none else some q) := by
  unfold GetQueueLock
  simp only [h]
  split_ifs <;> rfl

theorem GetQueueLock_absent (r : Registry) (name : String)
    (h : mapGet r.queues name = none) :
    GetQueueLock r name =
      (⟨(name, r.next) :: r.queues, r.next + 1⟩,
        if r.queues.length + 1 > 1000 then none else some r.next) := by
  unfold GetQueueLock
  simp only [h, mapSet_absent r.queues name r.next h, List.length_cons]
  split_ifs <;> rfl

theorem GetQueueLock_WF (r : Registry) (name : String) (hwf : r.WF) :
    (GetQueueLock r name).1.WF := by
  cases h : mapGet r.queues name with
  | some q =>
    rw [GetQueueLock_found r name q h]
    exact hwf
  | none =>
    rw [GetQueueLock_absent r name h]
    obtain ⟨hk, hv, hb⟩ := hwf
    refine ⟨?_, ?_, ?_⟩
    · simp only [List.map_cons, List.nodup_cons]
      exact ⟨(mapGet_eq_none_iff r.queues name).mp h, hk⟩
    · simp only [List.map_cons, List.nodup_cons]
      refine ⟨?_, hv⟩
      intro hmem
      obtain ⟨e, he, hee⟩ := List.mem_map.mp hmem
      have := hb e he
      omega
    · intro e he
      simp only [List.mem_cons] at he
      rcases he with he | he
      · subst he
        exact Nat.lt_succ_self _
      · exact Nat.lt_succ_of_lt (hb e he)

theorem callAll_WF (names : List String) (r : Registry) (hwf : r.WF) :
    (callAll r names).WF := by
  induction names generalizing r with
  | nil => exact hwf
  | cons n rest ih =>
    simp only [callAll, List.foldl_cons]
    exact ih _ (GetQueueLock_WF r n hwf)

theorem empty_WF : Registry.empty.WF := by
  simp [Registry.WF, Registry.empty]

theorem GetQueueLock_none_iff (r : Registry) (name : String) :
    (GetQueueLock r name).2 = none ↔ 1000 < (GetQueueLock r name).1.queues.length := by
  cases h : mapGet r.queues name with
  | some q =>
    rw [GetQueueLock_found r name q h]
    by_cases hbig : r.queues.length > 1000
    · simp [hbig]
    · simp [hbig]
  | none =>
    rw [GetQueueLock_absent r name h]
    by_cases hbig : r.queues.length + 1 > 1000
    · simp [hbig]
    · simp [hbig]

theorem allReturn_length (names : List String) (r : Registry)
    (hlen : r.queues.length ≤ 1000) (hret : allReturn r names = true) :
    (callAll r names).queues.length ≤ 1000 := by
  induction names generalizing r with
  | nil => exact hlen
  | cons n rest ih =>
    simp only [callAll, List.foldl_cons]
    unfold allReturn at hret
    have hiff := GetQueueLock_none_iff r n
    rcases hg : GetQueueLock r n with ⟨r1, _ | p⟩
    · simp [hg] at hret
    · simp only [hg] at hret
      rw [hg] at hiff
      apply ih r1 _ hret
      by_contra hcon
      have : (some p : Option Nat) = none := hiff.mpr (by simpa using hcon)
      exact absurd this (by simp)

theorem callAll_fresh_length (names : List String) (r : Registry) (hnd : names.Nodup)
    (hfresh : ∀ n ∈ names, mapGet r.queues n = none) :
    (callAll r names).queues.length = r.queues.length + names.length := by
  induction names generalizing r with
  | nil => rfl
  | cons n rest ih =>
    simp only [callAll, List.foldl_cons]
    have hn : mapGet r.queues n = none := hfresh n (List.mem_cons_self _ _)
    rw [GetQueueLock_absent r n hn]
    obtain ⟨hnot, hrest⟩ := List.nodup_cons.mp hnd
    have := ih ⟨(n, r.next) :: r.queues, r.next + 1⟩ hrest (by
      intro m hm
      have hmn : ¬ n = m := by
        intro e
        rw [e] at hnot
        exact hnot hm
      simp only [mapGet, hmn, if_false]
      exact hfresh m (List.mem_cons_of_mem _ hm))
    simp only [callAll] at this
    rw [this]
    simp only [List.length_cons]
    omega

theorem queueNames_nodup (n : Nat) : (queueNames n).Nodup := by
  unfold queueNames
  apply List.Nodup.map _ (List.nodup_range n)
  intro i j hij
  have h := congrArg (fun s : String => s.data.length) hij
  simp only [queueName, List.length_replicate] at h
  omega

theorem GetQueueLock_lookup (r : Registry) (name : String) :
    ∃ p, mapGet (GetQueueLock r name).1.queues name = some p ∧
      ((GetQueueLock r name).2 = some p ∨ (GetQueueLock r name).2 = none) := by
  cases h : mapGet r.queues name with
  | some q =>
    rw [GetQueueLock_found r name q h]
    refine ⟨q, h, ?_⟩
    by_cases hbig : r.queues.length > 1000
    · simp [hbig]
    · simp [hbig]
  | none =>
    rw [GetQueueLock_absent r name h]
    refine ⟨r.next, by simp [mapGet], ?_⟩
    by_cases hbig : r.queues.length + 1 > 1000
    · simp [hbig]
    · simp [hbig]

theorem GetQueueLock_length_le (r : Registry) (name : String) :
    (GetQueueLock r name).1.queues.length ≤ r.queues.length + 1 := by
  cases h : mapGet r.queues name with
  | some q =>
    rw [GetQueueLock_found r name q h]
    exact Nat.le_succ _
  | none =>
    rw [GetQueueLock_absent r name h]
    simp

theorem GetQueueLock_persist (r : Registry) (n k : String) (p : Nat)
    (h : mapGet r.queues k = some p) : mapGet (GetQueueLock r n).1.queues k = some p := by
  cases hn : mapGet r.queues n with
  | some q =>
    rw [GetQueueLock_found r n q hn]
    exact h
  | none =>
    rw [GetQueueLock_absent r n hn]
    have hnk : ¬ n = k := by
      intro e
      rw [e, h] at hn
      exact absurd hn (by simp)
    simp only [mapGet, hnk, if_false]
    exact h

theorem callAll_persist (names : List String) (r : Registry) (k : String) (p : Nat)
    (h : mapGet r.queues k = some p) : mapGet (callAll r names).queues k = some p := by
  induction names generalizing r with
  | nil => exact h
  | cons n rest ih =>
    simp only [callAll, List.foldl_cons]
    exact ih _ (GetQueueLock_persist r n k p h)

theorem GetQueueLock_later (r : Registry) (hwf : r.WF) (a b : String) (p p2 : Nat)
    (ha : mapGet r.queues a = some p) (hb : (GetQueueLock r b).2 = some p2) :
    p = p2 ↔ a = b := by
  obtain ⟨_, hv, hbound⟩ := hwf
  have hpa : (a, p) ∈ r.queues := mapGet_some_mem _ _ _ ha
  cases hgb : mapGet r.queues b with
  | some q =>
    rw [GetQueueLock_found r b q hgb] at hb
    have hq : q = p2 := by
      by_cases hbig : r.queues.length > 1000
      · simp [hbig] at hb
      · simpa [hbig] using hb
    subst hq
    constructor
    · intro hpq
      have hqb : (b, q) ∈ r.queues := mapGet_some_mem _ _ _ hgb
      have := List.inj_on_of_nodup_map hv hpa hqb (by simp [hpq])
      exact (Prod.mk.inj this).1
    · intro hab
      rw [hab, hgb] at ha
      exact (Option.some.inj ha).symm
  | none =>
    rw [GetQueueLock_absent r b hgb] at hb
    have hlt1 := hbound (a, p) hpa
    have hp2 : p2 = r.next := by
      by_cases hbig : r.queues.length + 1 > 1000
      · simp [hbig] at hb
      · have := hb
        simp only [hbig, if_false, Option.some.injEq] at this
        exact this.symm
    constructor
    · intro hpq
      simp only at hlt1
      omega
    · intro hab
      rw [hab, hgb] at ha
      exact absurd ha (by simp)

theorem runExec_world_queues (env : Env) (w : World) (self : ShellJob) :
    (runExec env w self).world.queues = w.queues := rfl

theorem runHooked_world_queues (env : Env) (w : World) (self : ShellJob) :
    (runHooked env w self).world.queues = w.queues := by
  unfold runHooked
  cases env.RunHook with
  | none => rfl
  | some hook =>
    cases hr : hook self with
    | panics => simp only [hr]
    | returnsTrue => simp only [hr]
    | returnsFalse =>
      simp only [hr]
      exact runExec_world_queues env w self

theorem runExec_no_lock (env : Env) (w : World) (self : ShellJob) :
    ∀ e ∈ (runExec env w self).trace, e.locked = none ∧ e.unlocked = none := by
  intro e he
  simp only [runExec, List.mem_append, List.mem_singleton, List.mem_cons,
    List.not_mem_nil, or_false] at he
  rcases he with (he | he) | he
  · subst he
    exact ⟨rfl, rfl⟩
  · cases hrot : (rotate_file env.fault w.fs self.logfile).2 with
    | none => simp [hrot] at he
    | some err =>
      simp only [hrot, List.mem_singleton] at he
      subst he
      exact ⟨rfl, rfl⟩
  · subst he
    exact ⟨rfl, rfl⟩

theorem runHooked_no_lock (env : Env) (w : World) (self : ShellJob) :
    ∀ e ∈ (runHooked env w self).trace, e.locked = none ∧ e.unlocked = none := by
  intro e he
  unfold runHooked at he
  cases hh : env.RunHook with
  | none =>
    simp only [hh] at he
    exact runExec_no_lock env w self e he
  | some hook =>
    simp only [hh] at he
    cases hr : hook self with
    | panics =>
      simp only [hr, List.mem_singleton] at he
      subst he
      exact ⟨rfl, rfl⟩
    | returnsTrue =>
      simp only [hr, List.mem_cons, List.mem_singleton, List.not_mem_nil, or_false] at he
      rcases he with he | he
      · subst he
        exact ⟨rfl, rfl⟩
      · subst he
        exact ⟨rfl, rfl⟩
    | returnsFalse =>
      simp only [hr, List.mem_cons] at he
      rcases he with he | he
      · subst he
        exact ⟨rfl, rfl⟩
      · exact runExec_no_lock env w self e he

theorem filterMap_none {α : Type} (f : Event → Option α) (l : List Event)
    (h : ∀ e ∈ l, f e = none) : l.filterMap f = [] := by
  induction l with
  | nil => rfl
  | cons e rest ih =>
    rw [List.filterMap_cons, h e (List.mem_cons_self _ _)]
    exact ih (fun x hx => h x (List.mem_cons_of_mem _ hx))

theorem runQueued_locked (env : Env) (w : World) (self : ShellJob) (reg : Registry) (q : Nat)
    (hq : self.queue ≠ "") (hg : GetQueueLock w.queues self.queue = (reg, some q)) :
    (∃ l1 l2 l3 : String, (runQueued env w self).trace =
      [Event.println l1] ++ (Event.lock q ::
        (Event.println l2 :: (runHooked env ⟨reg, w.fs⟩ self).trace) ++
        (Event.unlock q :: [Event.println l3]))) ∧
    (runQueued env w self).world.queues = reg ∧
    (runQueued env w self).world.fs = (runHooked env ⟨reg, w.fs⟩ self).world.fs := by
  have hqe : "" ≠ self.queue := fun e => hq e.symm
  unfold runQueued
  rw [if_pos hqe, hg]
  refine ⟨⟨"[" ++ self.name ++ "] try entry queue" ++ " " ++ self.queue ++ " " ++ ".",
      "[" ++ self.name ++ "] already entry queue" ++ " " ++ self.queue ++ " " ++ ".",
      "[" ++ (runHooked env ⟨reg, w.fs⟩ self).job.name ++ "] exit queue" ++ " " ++
        (runHooked env ⟨reg, w.fs⟩ self).job.queue ++ " " ++ ".", ?_⟩, ?_, rfl⟩
  · simp only [List.cons_append, List.nil_append, List.singleton_append]
  · exact runHooked_world_queues env ⟨reg, w.fs⟩ self

theorem runQueued_faulted (env : Env) (w : World) (self : ShellJob) (reg : Registry)
    (hq : self.queue ≠ "") (hg : GetQueueLock w.queues self.queue = (reg, none)) :
    (runQueued env w self).trace = [] := by
  have hqe : "" ≠ self.queue := fun e => hq e.symm
  unfold runQueued
  rw [if_pos hqe, hg]

theorem Run_locks (env : Env) (w : World) (self : ShellJob) (reg : Registry) (q : Nat)
    (hs : self.status = 0) (hen : self.enabled = true) (hm : self.isMode env.RunMode = true)
    (hq : self.queue ≠ "") (hg : GetQueueLock w.queues self.queue = (reg, some q)) :
    (∃ before inner after, (self.Run env w).trace =
        before ++ (Event.lock q :: inner) ++ (Event.unlock q :: after) ∧
      before.all Event.isPrintln = true ∧ after.all Event.isPrintln = true ∧
      ∀ e ∈ inner, e.locked = none ∧ e.unlocked = none) ∧
    (self.Run env w).locks = [q] ∧ (self.Run env w).unlocks = [q] ∧
    (self.Run env w).world.queues = reg := by
  rw [Run_guarded env w self hs hen hm]
  obtain ⟨⟨l1, l2, l3, htr⟩, hreg, _⟩ :=
    runQueued_locked env w { self with status := 1 } reg q hq hg
  have hin := runHooked_no_lock env ⟨reg, w.fs⟩ { self with status := 1 }
  have hnl := filterMap_none Event.locked _ (fun e he => (hin e he).1)
  have hnu := filterMap_none Event.unlocked _ (fun e he => (hin e he).2)
  refine ⟨⟨[Event.println l1],
      Event.println l2 :: (runHooked env ⟨reg, w.fs⟩ { self with status := 1 }).trace,
      [Event.println l3], ?_, rfl, rfl, ?_⟩, ?_, ?_, hreg⟩
  · simp only [htr, List.cons_append, List.nil_append, List.append_assoc]
  · intro e he
    rcases List.mem_cons.mp he with he | he
    · subst he
      exact ⟨rfl, rfl⟩
    · exact hin e he
  · show (runQueued env w { self with status := 1 }).trace.filterMap Event.locked = [q]
    rw [htr]
    simp [List.filterMap_cons, List.filterMap_append, Event.locked, hnl]
  · show (runQueued env w { self with status := 1 }).trace.filterMap Event.unlocked = [q]
    rw [htr]
    simp [List.filterMap_cons, List.filterMap_append, Event.unlocked, hnu]

theorem Run_locks_faulted (env : Env) (w : World) (self : ShellJob) (reg : Registry)
    (hs : self.status = 0) (hen : self.enabled = true) (hm : self.isMode env.RunMode = true)
    (hq : self.queue ≠ "") (hg : GetQueueLock w.queues self.queue = (reg, none)) :
    (self.Run env w).locks = [] := by
  rw [Run_guarded env w self hs hen hm]
  show (runQueued env w { self with status := 1 }).trace.filterMap Event.locked = []
  rw [runQueued_faulted env w { self with status := 1 } reg hq hg]
  rfl

/-- C4: in a registry reached from the empty one that holds fewer than 1000
names, `GetQueueLock a` returns a lock, which stays the one stored for `a`
through any calls made in between; a later `GetQueueLock b` that returns,
directly after or with other calls in between, returns the same lock exactly
when `a = b`; a repeated call with `a` returns the lock of the first call and
adds no entry; a call with a name already registered returns the stored lock
and adds no entry.  So two runs of jobs with the same queue name take and
release one and the same lock around the hook, the rotation and `Exec`, and
runs of jobs with different queue names take different locks. -/
theorem GetQueueLock_one_lock_per_name (pre between : List String) (a b : String)
    (hlt : (callAll Registry.empty pre).queues.length < 1000) :
    (∃ p, (GetQueueLock (callAll Registry.empty pre) a).2 = some p ∧
      mapGet (callAll (GetQueueLock (callAll Registry.empty pre) a).1 between).queues a
        = some p) ∧
    ((GetQueueLock (callAll Registry.empty pre) a).2 =
        (GetQueueLock (GetQueueLock (callAll Registry.empty pre) a).1 b).2 ↔ a = b) ∧
    ((GetQueueLock (callAll (GetQueueLock (callAll Registry.empty pre) a).1 between) b).2
        ≠ none →
      ((GetQueueLock (callAll Registry.empty pre) a).2 =
        (GetQueueLock (callAll (GetQueueLock (callAll Registry.empty pre) a).1 between) b).2
        ↔ a = b)) ∧
    ((callAll (GetQueueLock (callAll Registry.empty pre) a).1 between).queues.length ≤ 1000 →
      GetQueueLock (callAll (GetQueueLock (callAll Registry.empty pre) a).1 between) a =
        (callAll (GetQueueLock (callAll Registry.empty pre) a).1 between,
          (GetQueueLock (callAll Registry.empty pre) a).2)) ∧
    (∀ name p, mapGet (callAll Registry.empty pre).queues name = some p →
      GetQueueLock (callAll Registry.empty pre) name =
        (callAll Registry.empty pre, some p)) ∧
    (∀ (env1 env2 : Env) (fs : FS) (job1 job2 : ShellJob),
      job1.queue = a → job2.queue = b → a ≠ "" → b ≠ "" →
      job1.status = 0 → job1.enabled = true → job1.isMode env1.RunMode = true →
      job2.status = 0 → job2.enabled = true → job2.isMode env2.RunMode = true →
      ∃ p, (GetQueueLock (callAll Registry.empty pre) a).2 = some p ∧
        (∃ before inner after,
          (job1.Run env1 ⟨callAll Registry.empty pre, fs⟩).trace =
            before ++ (Event.lock p :: inner) ++ (Event.unlock p :: after) ∧
          before.all Event.isPrintln = true ∧ after.all Event.isPrintln = true ∧
          ∀ e ∈ inner, e.locked = none ∧ e.unlocked = none) ∧
        (job1.Run env1 ⟨callAll Registry.empty pre, fs⟩).locks = [p] ∧
        (job1.Run env1 ⟨callAll Registry.empty pre, fs⟩).unlocks = [p] ∧
        (a = b →
          (worldAfter (job1.Run env1 ⟨callAll Registry.empty pre, fs⟩)
            between).queues.queues.length ≤ 1000 →
          (job2.Run env2 (worldAfter (job1.Run env1 ⟨callAll Registry.empty pre, fs⟩)
            between)).locks = [p] ∧
          (job2.Run env2 (worldAfter (job1.Run env1 ⟨callAll Registry.empty pre, fs⟩)
            between)).unlocks = [p]) ∧
        (a ≠ b →
          p ∉ (job2.Run env2 (worldAfter (job1.Run env1 ⟨callAll Registry.empty pre, fs⟩)
            between)).locks)) := by
  have hwf : (callAll Registry.empty pre).WF := callAll_WF pre _ empty_WF
  generalize callAll Registry.empty pre = r at hlt hwf
  have hwf1 : (GetQueueLock r a).1.WF := GetQueueLock_WF r a hwf
  have hlen1 : (GetQueueLock r a).1.queues.length ≤ 1000 := by
    have := GetQueueLock_length_le r a
    omega
  have hsome : (GetQueueLock r a).2 ≠ none := by
    intro hnone
    have := (GetQueueLock_none_iff r a).mp hnone
    omega
  obtain ⟨p, hp, hres⟩ := GetQueueLock_lookup r a
  have hres1 : (GetQueueLock r a).2 = some p := by
    rcases hres with h | h
    · exact h
    · exact absurd h hsome
  have hwf2 : (callAll (GetQueueLock r a).1 between).WF := callAll_WF between _ hwf1
  have hp2 : mapGet (callAll (GetQueueLock r a).1 between).queues a = some p :=
    callAll_persist between _ a p hp
  -- a call made later, in a registry in which `a` still has the lock `p`
  have hlater : ∀ r2 : Registry, r2.WF → mapGet r2.queues a = some p →
      (GetQueueLock r2 b).2 ≠ none → ((GetQueueLock r a).2 = (GetQueueLock r2 b).2 ↔ a = b) := by
    intro r2 hw2 ha2 hret
    cases hb2 : (GetQueueLock r2 b).2 with
    | none => exact absurd hb2 hret
    | some q =>
      rw [hres1]
      have := GetQueueLock_later r2 hw2 a b p q ha2 hb2
      constructor
      · intro h
        exact this.mp (Option.some.inj h)
      · intro h
        rw [this.mpr h]
  have hagain : ∀ r2 : Registry, mapGet r2.queues a = some p → r2.queues.length ≤ 1000 →
      GetQueueLock r2 a = (r2, (GetQueueLock r a).2) := by
    intro r2 ha2 hl2
    rw [GetQueueLock_found r2 a p ha2, hres1]
    have : ¬ r2.queues.length > 1000 := by omega
    simp [this]
  refine ⟨⟨p, hres1, hp2⟩, ?_, hlater _ hwf2 hp2, hagain _ hp2, ?_, ?_⟩
  · constructor
    · intro heq
      have hret : (GetQueueLock (GetQueueLock r a).1 b).2 ≠ none := by
        rw [← heq]
        exact hsome
      exact (hlater _ hwf1 hp hret).mp heq
    · intro hab
      subst hab
      rw [hagain _ hp hlen1]
  · intro name q hq
    rw [GetQueueLock_found r name q hq]
    have : ¬ r.queues.length > 1000 := by omega
    simp [this]
  · intro env1 env2 fs job1 job2 hq1 hq2 ha hb hs1 hen1 hm1 hs2 hen2 hm2
    have hg1 : GetQueueLock r job1.queue = ((GetQueueLock r a).1, some p) := by
      rw [hq1, ← hres1]
    obtain ⟨hshape, hl1, hu1, hreg1⟩ :=
      Run_locks env1 ⟨r, fs⟩ job1 _ p hs1 hen1 hm1 (by rw [hq1]; exact ha) hg1
    refine ⟨p, hres1, hshape, hl1, hu1, ?_, ?_⟩
    · intro hab hcap
      have hw : (worldAfter (job1.Run env1 ⟨r, fs⟩) between).queues =
          callAll (GetQueueLock r a).1 between := by
        unfold worldAfter
        rw [hreg1]
      rw [hw] at hcap
      have hg2 : GetQueueLock (worldAfter (job1.Run env1 ⟨r, fs⟩) between).queues job2.queue =
          (callAll (GetQueueLock r a).1 between, some p) := by
        rw [hw, hq2, ← hab, hagain _ hp2 hcap, hres1]
      obtain ⟨_, hl2, hu2, _⟩ :=
        Run_locks env2 _ job2 _ p hs2 hen2 hm2 (by rw [hq2]; exact hb) hg2
      exact ⟨hl2, hu2⟩
    · intro hab
      have hw : (worldAfter (job1.Run env1 ⟨r, fs⟩) between).queues =
          callAll (GetQueueLock r a).1 between := by
        unfold worldAfter
        rw [hreg1]
      rcases hg2 : GetQueueLock (worldAfter (job1.Run env1 ⟨r, fs⟩) between).queues job2.queue
        with ⟨reg2, _ | q⟩
      · rw [Run_locks_faulted env2 _ job2 reg2 hs2 hen2 hm2 (by rw [hq2]; exact hb) hg2]
        simp
      · obtain ⟨_, hl2, _, _⟩ :=
          Run_locks env2 _ job2 reg2 q hs2 hen2 hm2 (by rw [hq2]; exact hb) hg2
        rw [hl2]
        intro hmem
        have hpq : p = q := by simpa using hmem
        rw [hw, hq2] at hg2
        have hb2 : (GetQueueLock (callAll (GetQueueLock r a).1 between) b).2 = some q := by
          rw [hg2]
        exact hab ((GetQueueLock_later _ hwf2 a b p q hp2 hb2).mp hpq)

/-- C4 at the registry holding the queues q and qq: the lock of "disk"
differs from the lock of "net" and is returned again for "disk" after the call
for "net"; two runs of a job queued on "disk", with a call for "net" in
between, take the same lock. -/
theorem GetQueueLock_one_lock_per_name_witness :
    (callAll Registry.empty (queueNames 2)).queues.length < 1000 ∧
    ((GetQueueLock (callAll Registry.empty (queueNames 2)) "disk").2 =
        (GetQueueLock (GetQueueLock (callAll Registry.empty (queueNames 2)) "disk").1 "net").2
      ↔ "disk" = "net") ∧
    GetQueueLock
        (callAll (GetQueueLock (callAll Registry.empty (queueNames 2)) "disk").1 ["net"])
        "disk" =
      (callAll (GetQueueLock (callAll Registry.empty (queueNames 2)) "disk").1 ["net"],
        (GetQueueLock (callAll Registry.empty (queueNames 2)) "disk").2) ∧
    (∃ p,
      (jobQueued.Run envRefusing ⟨callAll Registry.empty (queueNames 2), fsFull⟩).locks = [p] ∧
      (jobQueued.Run envExecPanics
        (worldAfter (jobQueued.Run envRefusing ⟨callAll Registry.empty (queueNames 2), fsFull⟩)
          ["net"])).locks = [p]) :=
  have h := GetQueueLock_one_lock_per_name (queueNames 2) ["net"] "disk" "net" (by decide)
  have h2 := GetQueueLock_one_lock_per_name (queueNames 2) ["net"] "disk" "disk" (by decide)
  ⟨by decide, h.2.1, h.2.2.2.1 (by decide),
   match h2.2.2.2.2.2 envRefusing envExecPanics fsFull jobQueued jobQueued rfl rfl
      (by decide) (by decide) rfl rfl (by decide) rfl rfl (by decide) with
   | ⟨p, _, _, hl, _, hsame, _⟩ => ⟨p, hl, (hsame rfl (by decide)).1⟩⟩

theorem GetQueueLock_length_ge (r : Registry) (name : String) :
    r.queues.length ≤ (GetQueueLock r name).1.queues.length := by
  cases h : mapGet r.queues name with
  | some q =>
    rw [GetQueueLock_found r name q h]
  | none =>
    rw [GetQueueLock_absent r name h]
    simp

theorem callAll_length_ge (names : List String) (r : Registry) :
    r.queues.length ≤ (callAll r names).queues.length := by
  induction names generalizing r with
  | nil => exact Nat.le_refl _
  | cons n rest ih =>
    simp only [callAll, List.foldl_cons]
    exact Nat.le_trans (GetQueueLock_length_ge r n) (ih _)

theorem allReturn_of_length (names : List String) (r : Registry)
    (hlen : (callAll r names).queues.length ≤ 1000) : allReturn r names = true := by
  induction names generalizing r with
  | nil => rfl
  | cons n rest ih =>
    simp only [callAll, List.foldl_cons] at hlen
    have hge := callAll_length_ge rest (GetQueueLock r n).1
    simp only [callAll] at hge
    have hiff := GetQueueLock_none_iff r n
    unfold allReturn
    rcases hg : GetQueueLock r n with ⟨r1, _ | p⟩
    · rw [hg] at hiff hge
      have := hiff.mp rfl
      simp only at this hge
      rw [hg] at hlen
      simp only at hlen
      omega
    · simp only
      apply ih
      rw [hg] at hlen
      exact hlen

theorem callAll_snoc (r : Registry) (l : List String) (x : String) :
    callAll r (l ++ [x]) = (GetQueueLock (callAll r l) x).1 := by
  simp [callAll, List.foldl_append]

theorem queueNames_succ (n : Nat) : queueNames (n + 1) = queueNames n ++ [queueName n] := by
  simp [queueNames, List.range_succ]

theorem callAll_queueNames_length (n : Nat) :
    (callAll Registry.empty (queueNames n)).queues.length = n := by
  have := callAll_fresh_length (queueNames n) Registry.empty (queueNames_nodup n)
    (by intro m _; rfl)
  rw [this]
  simp [Registry.empty, queueNames]

/-- C5, as stated, fails: after calls with 1001 distinct names, the last of
which is the first to fault, the registry holds 1001 distinct names; and a
further call with a name that is already registered faults as well, although
it would add nothing. -/
theorem registry_cap_claim_counterexample :
    ((callAll Registry.empty (queueNames 1001)).queues.map Prod.fst).Nodup ∧
    (callAll Registry.empty (queueNames 1001)).queues.length = 1001 ∧
    allReturn Registry.empty (queueNames 1000) = true ∧
    mapGet (callAll Registry.empty (queueNames 1001)).queues (queueName 1000) ≠ none ∧
    (GetQueueLock (callAll Registry.empty (queueNames 1001)) (queueName 1000)).2 = none := by
  have hlen := callAll_queueNames_length 1001
  have hreg : ∃ p, mapGet (callAll Registry.empty (queueNames 1001)).queues (queueName 1000)
      = some p := by
    rw [queueNames_succ 1000, callAll_snoc]
    obtain ⟨p, hp, _⟩ := GetQueueLock_lookup (callAll Registry.empty (queueNames 1000))
      (queueName 1000)
    exact ⟨p, hp⟩
  obtain ⟨p, hp⟩ := hreg
  refine ⟨(callAll_WF _ _ empty_WF).1, hlen, ?_, ?_, ?_⟩
  · apply allReturn_of_length
    rw [callAll_queueNames_length 1000]
  · rw [hp]
    simp
  · rw [GetQueueLock_found _ _ p hp, hlen]
    simp

/-- C5, amended: in every state reached from the empty registry by calls that
all returned, the registry holds at most 1000 distinct names; from such a
state a call faults exactly when its name is not registered and the registry
already holds 1000 names, and the faulting call leaves the new name in the
registry, which then holds 1001 names. -/
theorem registry_cap (names : List String)
    (hret : allReturn Registry.empty names = true) (name : String) :
    (callAll Registry.empty names).queues.length ≤ 1000 ∧
    ((callAll Registry.empty names).queues.map Prod.fst).Nodup ∧
    ((GetQueueLock (callAll Registry.empty names) name).2 = none ↔
      (mapGet (callAll Registry.empty names).queues name = none ∧
        (callAll Registry.empty names).queues.length = 1000)) ∧
    ((GetQueueLock (callAll Registry.empty names) name).2 = none →
      (GetQueueLock (callAll Registry.empty names) name).1.queues.length = 1001 ∧
      mapGet (GetQueueLock (callAll Registry.empty names) name).1.queues name ≠ none) := by
  have hlen : (callAll Registry.empty names).queues.length ≤ 1000 :=
    allReturn_length names Registry.empty (by simp [Registry.empty]) hret
  have hwf : (callAll Registry.empty names).WF := callAll_WF names _ empty_WF
  generalize callAll Registry.empty names = r at hlen hwf
  have hiff : (GetQueueLock r name).2 = none ↔
      (mapGet r.queues name = none ∧ r.queues.length = 1000) := by
    cases h : mapGet r.queues name with
    | some q =>
      rw [GetQueueLock_found r name q h]
      have : ¬ r.queues.length > 1000 := by omega
      simp [this]
    | none =>
      rw [GetQueueLock_absent r name h]
      by_cases hbig : r.queues.length + 1 > 1000
      · have : r.queues.length = 1000 := by omega
        simp [hbig, this]
      · have : r.queues.length ≠ 1000 := by omega
        simp [hbig, this]
  refine ⟨hlen, hwf.1, hiff, ?_⟩
  intro hnone
  obtain ⟨habs, h1000⟩ := hiff.mp hnone
  rw [GetQueueLock_absent r name habs]
  simp [h1000, mapGet]

/-- C5, amended, at the registry holding 1000 names: a call with a new name
faults and leaves 1001 names. -/
theorem registry_cap_witness :
    allReturn Registry.empty (queueNames 1000) = true ∧
    (GetQueueLock (callAll Registry.empty (queueNames 1000)) (queueName 1000)).2 = none ∧
    (GetQueueLock (callAll Registry.empty (queueNames 1000))
      (queueName 1000)).1.queues.length = 1001 :=
  have hret : allReturn Registry.empty (queueNames 1000) = true :=
    allReturn_of_length _ _ (by rw [callAll_queueNames_length 1000])
  have hnew : (GetQueueLock (callAll Registry.empty (queueNames 1000)) (queueName 1000)).2
      = none := by
    have h1 := callAll_queueNames_length 1001
    rw [queueNames_succ 1000, callAll_snoc] at h1
    exact (GetQueueLock_none_iff _ _).mpr (by
      rw [h1]
      decide)
  ⟨hret, hnew, ((registry_cap (queueNames 1000) hret (queueName 1000)).2.2.2 hnew).1⟩

/-! ### LookPath -/

theorem foldl_append_flatMap (h : String → List String) (aliases : List String)
    (init : List String) :
    aliases.foldl (fun names a => names ++ h a) init = init ++ aliases.flatMap h := by
  induction aliases generalizing init with
  | nil => simp
  | cons a rest ih =>
    simp only [List.foldl_cons, List.flatMap_cons]
    rw [ih, List.append_assoc]

theorem findSome?_flatMap_eq {α : Type} (f : String → List String) (g : String → Option α)
    (l : List String) :
    (l.flatMap f).findSome? g = l.findSome? (fun x => (f x).findSome? g) := by
  induction l with
  | nil => rfl
  | cons a rest ih =>
    simp only [List.flatMap_cons, List.findSome?_append, List.findSome?_cons, ih]
    cases (f a).findSome? g <;> rfl

theorem findSome?_congr_on {α : Type} (f1 f2 : String → Option α) (l : List String)
    (h : ∀ x ∈ l, f1 x = f2 x) : l.findSome? f1 = l.findSome? f2 := by
  induction l with
  | nil => rfl
  | cons a rest ih =>
    simp only [List.findSome?_cons]
    rw [h a (List.mem_cons_self _ _), ih (fun x hx => h x (List.mem_cons_of_mem _ hx))]

theorem findSome?_repeated {α : Type} (g : String → Option α) (a b c d : String) :
    [a, b, c, a, d].findSome? g = [a, b, c, d].findSome? g := by
  simp only [List.findSome?_cons]
  cases ha : g a with
  | some x => rfl
  | none => rfl

theorem lookPathNames_findSome? {α : Type} (P : Platform) (pa : String)
    (aliases : List String) (g : String → Option α) :
    (lookPathNames P pa aliases).findSome? g = (specNames P pa aliases).findSome? g := by
  unfold lookPathNames specNames specExtensions
  by_cases hw : P.GOOS = "windows"
  · simp only [if_pos hw]
    rw [foldl_append_flatMap
      (fun a => [a, a ++ ".bat", a ++ ".com", a, a ++ ".exe"]) aliases]
    simp only [List.flatMap_cons, List.map_cons, List.map_nil, List.findSome?_append]
    rw [findSome?_flatMap_eq, findSome?_flatMap_eq]
    congr 1
    apply findSome?_congr_on
    intro x _
    exact findSome?_repeated g x _ _ _
  · simp only [if_neg hw]
    rw [foldl_append_flatMap (fun a => [a, a ++ ".sh"]) aliases]
    simp only [List.flatMap_cons, List.map_cons, List.map_nil, List.findSome?_append]

theorem find?_eq_findSome? (p : String → Bool) (l : List String) :
    l.find? p = l.findSome? (fun x => if p x then some x else none) := by
  induction l with
  | nil => rfl
  | cons a rest ih =>
    simp only [List.find?_cons, List.findSome?_cons]
    cases hp : p a with
    | true => simp
    | false => simp [ih]

theorem specLocations_eq (P : Platform) (root nm : String) :
    specLocations P root nm = lookPathFiles P root nm := by
  simp [specLocations, lookPathFiles]

theorem LookPath_eq_spec (P : Platform) (fs : FS) (root pa : String) (aliases : List String)
    (hrel : P.IsAbs pa = false) :
    LookPath P fs root pa aliases =
      match specFirst P fs root pa aliases with
      | some file => (file, true)
      | none =>
        match (specNames P pa aliases).find? P.execLookPath with
        | some nm => (nm, true)
        | none => ("", false) := by
  unfold LookPath specFirst specCandidates
  simp only [hrel, Bool.false_eq_true, if_false]
  rw [lookPathNames_findSome?, findSome?_flatMap_eq]
  have hloc : (fun x => (specLocations P root x).findSome? (probe P fs)) =
      (fun nm => (lookPathFiles P root nm).findSome? (probe P fs)) := by
    funext x
    rw [specLocations_eq]
  rw [hloc, find?_eq_findSome?, lookPathNames_findSome?, ← find?_eq_findSome?]

theorem probe_eq (P : Platform) (fs : FS) (file : String) :
    probe P fs file = if isRegular P fs file then some (P.abs file) else none := by
  unfold probe isRegular Stat
  simp only []
  cases h : fs (P.abs file) with
  | none => simp
  | some st => cases hd : st.isDir <;> simp [hd]

theorem findSome?_first {α : Type} (g : String → Option α) (l1 l2 : List String) (c : String)
    (h1 : ∀ x ∈ l1, g x = none) :
    (l1 ++ c :: l2).findSome? g = (c :: l2).findSome? g := by
  induction l1 with
  | nil => rfl
  | cons a rest ih =>
    simp only [List.cons_append, List.findSome?_cons]
    rw [h1 a (List.mem_cons_self _ _)]
    exact ih (fun x hx => h1 x (List.mem_cons_of_mem _ hx))

theorem findSome?_unique {α : Type} (g : String → Option α) (l : List String) (c : String)
    (t : α) (hc : c ∈ l) (hg : g c = some t) (hall : ∀ x ∈ l, ∀ u, g x = some u → u = t) :
    l.findSome? g = some t := by
  induction l with
  | nil => simp at hc
  | cons a rest ih =>
    simp only [List.findSome?_cons]
    cases ha : g a with
    | some u =>
      simp only
      rw [hall a (List.mem_cons_self _ _) u ha]
    | none =>
      simp only
      rcases List.mem_cons.mp hc with hca | hca
      · rw [hca, ha] at hg
        exact absurd hg (by simp)
      · exact ih hca (fun x hx => hall x (List.mem_cons_of_mem _ hx))

/-- C8, as stated, fails on Windows: the root `C:\app` contains
`tools\foo.sh`, no candidate of `foo` exists anywhere, and resolving `foo`
reports not-found, because the names tried there are `foo`, `foo.bat`,
`foo.com` and `foo.exe`. -/
theorem LookPath_foo_claim_counterexample :
    winPlatform.IsAbs "foo" = false ∧
    isRegular winPlatform winFS (winPlatform.Join [winRoot, "tools", "foo.sh"]) = true ∧
    (∀ c ∈ specCandidates winPlatform winRoot "foo" [], isRegular winPlatform winFS c = false) ∧
    LookPath winPlatform winFS winRoot "foo" [] = ("", false) := by
  refine ⟨by decide, by decide, by decide, by decide⟩

/-- C8, amended: for a non-absolute name, the candidates are enumerated
name-major (base name, base name with each platform extension, then each alias
likewise), 16 locations per name in the listed order, and `LookPath` returns
with success the absolute form of the first candidate that exists and is not a
directory; hence, on a platform other than Windows, with a root that contains
`tools/foo.sh` and no other candidate of `foo` anywhere, resolving `foo`
returns the absolute form of `<root>/tools/foo.sh`. -/
theorem LookPath_first_candidate (P : Platform) (fs : FS) (root pa : String)
    (aliases : List String) (hrel : P.IsAbs pa = false) :
    (∀ nm, (specLocations P root nm).length = 16) ∧
    (∀ l1 c l2, specCandidates P root pa aliases = l1 ++ c :: l2 →
      (∀ x ∈ l1, isRegular P fs x = false) → isRegular P fs c = true →
      LookPath P fs root pa aliases = (P.abs c, true)) ∧
    (P.GOOS ≠ "windows" → pa = "foo" → aliases = [] →
      isRegular P fs (P.Join [root, "tools", "foo.sh"]) = true →
      (∀ c ∈ specCandidates P root "foo" [], isRegular P fs c = true →
        P.abs c = P.abs (P.Join [root, "tools", "foo.sh"])) →
      LookPath P fs root "foo" [] = (P.abs (P.Join [root, "tools", "foo.sh"]), true)) := by
  refine ⟨fun nm => rfl, ?_, ?_⟩
  · intro l1 c l2 hsplit hbefore hc
    rw [LookPath_eq_spec P fs root pa aliases hrel]
    unfold specFirst
    rw [hsplit, findSome?_first (probe P fs) l1 l2 c
      (fun x hx => by rw [probe_eq, hbefore x hx]; rfl)]
    simp [List.findSome?_cons, probe_eq, hc]
  · intro hw hpa hal hfile honly
    subst hpa hal
    rw [LookPath_eq_spec P fs root "foo" [] hrel]
    have hmem : P.Join [root, "tools", "foo.sh"] ∈ specCandidates P root "foo" [] := by
      have hname : "foo" ++ ".sh" = "foo.sh" := by decide
      simp [specCandidates, specNames, specExtensions, hw, specLocations, hname]
    have hfirst : specFirst P fs root "foo" [] = some (P.abs (P.Join [root, "tools", "foo.sh"])) := by
      unfold specFirst
      apply findSome?_unique (probe P fs) _ _ _ hmem
      · rw [probe_eq, hfile]
        rfl
      · intro x hx u hu
        rw [probe_eq] at hu
        cases hreg : isRegular P fs x with
        | false => simp [hreg] at hu
        | true =>
          simp only [hreg, if_true, Option.some.injEq] at hu
          rw [← hu]
          exact honly x hx hreg
    rw [hfirst]

/-- C8, amended, on a POSIX platform with the single file
`/opt/app/tools/foo.sh`. -/
theorem LookPath_first_candidate_witness :
    posixPlatform.IsAbs "foo" = false ∧
    LookPath posixPlatform posixFS "/opt/app" "foo" [] = ("/opt/app/tools/foo.sh", true) :=
  ⟨rfl,
   (LookPath_first_candidate posixPlatform posixFS "/opt/app" "foo" [] rfl).2.2
     (by decide) rfl rfl (by decide)
     (fun c _ hc => by
       have habs : posixPlatform.abs c = "/opt/app/tools/foo.sh" := by
         unfold isRegular posixFS at hc
         by_cases h : posixPlatform.abs c = "/opt/app/tools/foo.sh"
         · exact h
         · simp [h] at hc
       rw [habs]
       decide)⟩

/-! ### Exec -/

theorem Exec_opened (P : Platform) (fs : FS) (folder : String) (os : ProcessEnv)
    (self : ShellJob)
    (hopen : os.openError self.logfile = none ∨
      os.openError (sanitizeLogfile self.logfile) = none) :
    (self.Exec P fs folder os).written =
        [beginMarker] ++
          execHeader (os.commandPath (resolveExecutable P fs folder self.execute))
            (resolveExecutable P fs folder self.execute :: self.arguments) ++
          (startAndWait os self.timeout).1 ++ [endMarker] ∧
    (self.Exec P fs folder os).killed = (startAndWait os self.timeout).2 := by
  unfold ShellJob.Exec
  cases h1 : os.openError self.logfile with
  | none => exact ⟨rfl, rfl⟩
  | some e =>
    have h2 : os.openError (sanitizeLogfile self.logfile) = none := by
      rcases hopen with h | h
      · rw [h1] at h
        exact absurd h (by simp)
      · exact h
    simp only [h2]
    exact ⟨trivial, trivial⟩

/-- C6: for a job whose log was opened, and whose process started: with a
timeout above zero and the timer firing before the process completes, the
process is killed by its pid and the log receives, after the header, the line
"run timeout, kill it." and then the end marker, so no exit-status line; with
the process completing first, or a timeout of zero or less, nothing is killed
and the log receives, after the header, exactly one line, "run ok, exit with
<status>." or "run failed, <error>", and then the end marker; in every case,
a failed start included, the end marker is the last thing written. -/
theorem Exec_timeout_enforcement (P : Platform) (fs : FS) (folder : String)
    (os : ProcessEnv) (self : ShellJob)
    (hopen : os.openError self.logfile = none ∨
      os.openError (sanitizeLogfile self.logfile) = none) :
    (os.startError = none → 0 < self.timeout → os.selected = SelectCase.timerFired →
      (self.Exec P fs folder os).killed = [os.pid] ∧
      (self.Exec P fs folder os).written =
        [beginMarker] ++
          execHeader (os.commandPath (resolveExecutable P fs folder self.execute))
            (resolveExecutable P fs folder self.execute :: self.arguments) ++
          ["run timeout, kill it.\r\n", endMarker]) ∧
    (os.startError = none → (self.timeout ≤ 0 ∨ os.selected = SelectCase.processDone) →
      (self.Exec P fs folder os).killed = [] ∧
      ∃ line, (self.Exec P fs folder os).written =
        [beginMarker] ++
          execHeader (os.commandPath (resolveExecutable P fs folder self.execute))
            (resolveExecutable P fs folder self.execute :: self.arguments) ++
          [line, endMarker] ∧
        ((∃ err state, os.wait = WaitResult.failed err state ∧
            line = "run failed, " ++ err ++ "\r\n") ∨
          (∃ state, os.wait = WaitResult.exited state ∧
            line = "run ok, exit with " ++ state ++ ".\r\n"))) ∧
    (self.Exec P fs folder os).written.getLast? = some endMarker := by
  obtain ⟨hw, hk⟩ := Exec_opened P fs folder os self hopen
  have hexit : ∃ line, exitLines os.wait = [line] ∧
      ((∃ err state, os.wait = WaitResult.failed err state ∧
          line = "run failed, " ++ err ++ "\r\n") ∨
        (∃ state, os.wait = WaitResult.exited state ∧
          line = "run ok, exit with " ++ state ++ ".\r\n")) := by
    cases hwait : os.wait with
    | failed err state => exact ⟨_, rfl, Or.inl ⟨err, state, rfl, rfl⟩⟩
    | exited state => exact ⟨_, rfl, Or.inr ⟨state, rfl, rfl⟩⟩
  refine ⟨?_, ?_, ?_⟩
  · intro hstart hpos hsel
    have hrun : startAndWait os self.timeout = (["run timeout, kill it.\r\n"], [os.pid]) := by
      unfold startAndWait
      rw [hstart]
      simp only [hsel]
      rw [if_neg (not_le.mpr hpos)]
    rw [hw, hk, hrun]
    exact ⟨rfl, by simp⟩
  · intro hstart hcase
    obtain ⟨line, hline, hkind⟩ := hexit
    have hrun : startAndWait os self.timeout = ([line], []) := by
      unfold startAndWait
      rw [hstart]
      simp only
      by_cases hle : self.timeout ≤ 0
      · rw [if_pos hle, hline]
      · rw [if_neg hle]
        rcases hcase with h | h
        · exact absurd h hle
        · simp only [h, hline]
    rw [hw, hk, hrun]
    exact ⟨rfl, line, by simp, hkind⟩
  · rw [hw, List.getLast?_concat]

/-- C6 at a job that sleeps longer than its timeout, with the timer firing
first and with the process completing first. -/
theorem Exec_timeout_enforcement_witness :
    (jobSleep.Exec posixPlatform posixFS "/opt/app" osTimerFires).killed = [4242] ∧
    (jobSleep.Exec posixPlatform posixFS "/opt/app" osTimerFires).written =
      [beginMarker, "sleep", "\r\n \t\t", "10",
        "\r\n===============  out  ===============\r\n", "run timeout, kill it.\r\n",
        endMarker] ∧
    (jobSleep.Exec posixPlatform posixFS "/opt/app" osProcessDone).killed = [] ∧
    (jobSleep.Exec posixPlatform posixFS "/opt/app" osProcessDone).written.getLast? =
      some endMarker :=
  have h1 := Exec_timeout_enforcement posixPlatform posixFS "/opt/app" osTimerFires jobSleep
    (Or.inl rfl)
  have h2 := Exec_timeout_enforcement posixPlatform posixFS "/opt/app" osProcessDone jobSleep
    (Or.inl rfl)
  ⟨(h1.1 rfl (by decide) rfl).1, by
    rw [(h1.1 rfl (by decide) rfl).2]
    decide,
   (h2.2.1 rfl (Or.inr rfl)).1, h2.2.2⟩


end SchdJob
